import Mathlib

/-!
Verification of the `persistent-computations` library: a shallow embedding of
`src/persistent-computation-context.js` (the Runner / context) and
`src/persistent-computation.js` (the computation / step boundary), together with
theorems about the recovery, replay and failure-persistence behaviour.

Modelling conventions:
* JavaScript values that can cross the step boundary or serve as dependency
  descriptions are modelled by the inductive type `Value` (scalars plus a pair
  constructor for composite data); JS falsiness is `Value.isFalsy`.
* The injected transport capability works on one configured location, modelled
  by `World` (the content stored at `recoveryDataLocation`).  The injected
  transformer (v8 serialize/deserialize) is modelled as a perfect codec:
  `Bytes` is identified with the decoded content, where `none` stands for a
  payload whose decoded value is JS-falsy.
* Faults of the injected capabilities are modelled by the `Faults` record; the
  healthy default capabilities are `noFaults`.
* A computation subclass is `ComputationClass` (its runtime `constructor.name`
  plus its `run` method); the per-instance mutable state (`#currentStepIndex`,
  `#hasRecoveryData`) is `CompInstance`.  The body of a `run` method is the
  free-monad style `Prog`, whose `step` node carries the value the step
  callback would produce.
* Effects are made explicit: every operation returns its result together with
  the updated state, the list of transport events it issued, and the number of
  step callbacks it invoked.
-/

namespace PersistentComputations

/-- Model of the V8-serializable JavaScript values handled by the library:
scalars plus a pair constructor for composite values. -/
inductive Value where
  | vUndefined : Value
  | vNull : Value
  | vBool (b : Bool) : Value
  | vInt (n : Int) : Value
  | vStr (s : String) : Value
  | vPair (a b : Value) : Value
deriving DecidableEq, Repr

/-- JavaScript falsiness of a `Value` (`undefined`, `null`, `false`, `0`, `""`). -/
def Value.isFalsy : Value → Bool
  | .vUndefined => true
  | .vNull => true
  | .vBool b => !b
  | .vInt n => n == 0
  | .vStr s => s == ""
  | .vPair _ _ => false

/-- Errors that can be raised: computation errors (`src/errors.js`), the
TypeError raised by `new` on a non-constructor, and faults of the injected
transport / transformer capabilities. -/
inductive Err where
  | baseComputationError (msg : String) : Err
  | computationFailedError (stepName : String) (cause : Err) : Err
  | typeError (msg : String) : Err
  | transportError (msg : String) : Err
  | transformerError (msg : String) : Err
deriving DecidableEq, Repr

/-- The persisted recovery state (`recoveryData` in the source): a mapping from
computation name to its ordered list of step results, the dependency
description, and an optional recorded error. -/
structure RecoveryData where
  computations : List (String × List Value)
  dependencies : Value
  error : Option Err := none
deriving DecidableEq, Repr

/-- Property lookup `computations[name]` on the computations mapping. -/
def findComp : List (String × List Value) → String → Option (List Value)
  | [], _ => none
  | (n, l) :: rest, name => if n == name then some l else findComp rest name

/-- Mirrors `if (!computations[name]) computations[name] = []; computations[name].push(result)`:
sets the key to a fresh one-element list when absent, otherwise pushes at the end. -/
def updateComp : List (String × List Value) → String → Value → List (String × List Value)
  | [], name, v => [(name, [v])]
  | (n, l) :: rest, name, v =>
      if n == name then (n, l ++ [v]) :: rest else (n, l) :: updateComp rest name v

/-- Deep structural equality on values, modelling `fast-deep-equal`. -/
def fastDeepEqual (a b : Value) : Bool := a == b

/-- Body of a computation's `run` method, as the sequence of step-boundary
crossings it performs: it either returns a value, crosses `this.step(fn)` (the
`fn` argument records the value the callback would produce) and continues with
the step's value, or raises an error. -/
inductive Prog where
  | ret (v : Value) : Prog
  | step (fn : Value) (k : Value → Prog) : Prog
  | throwErr (e : Err) : Prog

/-- A computation subclass: its runtime class name (`constructor.name`) and its
`run` method.  The source declares no other identifier on a computation. -/
structure ComputationClass where
  name : String
  run : Value → Prog

/-- Mutable state of one `PersistentComputation` instance: the class it was
constructed from (reachable as `constructor.name`), the private
`#hasRecoveryData` flag and the private `#currentStepIndex` cursor. -/
structure CompInstance where
  className : String
  hasRecData : Bool := false
  currentStepIndex : Nat := 0
deriving DecidableEq, Repr

/-- Constructor of `PersistentComputation`: cursor 0, recovered flag false. -/
def newInstance (className : String) : CompInstance :=
  { className := className, hasRecData := false, currentStepIndex := 0 }

/-- Mirrors `PersistentComputation.markRecovered`. -/
def markRecovered (inst : CompInstance) : CompInstance :=
  { inst with hasRecData := true }

/-- Mirrors `PersistentComputationContext.hasRecoveryData(computation)`: false
when `computations[name]` is absent, false when `stepData.length <= currentStepIndex`,
true otherwise. -/
def PersistentComputationContext.hasRecoveryData
    (rd : RecoveryData) (className : String) (currentStepIndex : Nat) : Bool :=
  match findComp rd.computations className with
  | none => false
  | some stepData => !(stepData.length ≤ currentStepIndex : Bool)

/-- Mirrors `PersistentComputationContext.getStepValue(computation)`:
`computations[name][currentStepIndex]` (out-of-range access yields `undefined`). -/
def PersistentComputationContext.getStepValue
    (rd : RecoveryData) (className : String) (currentStepIndex : Nat) : Value :=
  ((findComp rd.computations className).getD []).getD currentStepIndex .vUndefined

/-- Mirrors `PersistentComputationContext.save(error, step, result)`.  The
source distinguishes a two-argument call (`save(error, computation)`, only
recording the error) from a three-argument call (`save(null, this, result)`,
pushing the step result) via `arguments.length`; `result = none` models the
two-argument call. -/
def PersistentComputationContext.save
    (rd : RecoveryData) (error : Option Err) (stepName : String)
    (result : Option Value) : RecoveryData :=
  let rd1 := match error with
    | some e => { rd with error := some e }
    | none => rd
  match result with
  | some v => { rd1 with computations := updateComp rd1.computations stepName v }
  | none => rd1

/-- Result of one `step` call: the step's value, the updated recovery data and
instance, and whether the callback `fn` was invoked. -/
structure StepOut where
  result : Value
  rd : RecoveryData
  inst : CompInstance
  fnInvoked : Bool
deriving DecidableEq, Repr

/-- Mirrors `PersistentComputation.step(fn)`: replay the stored value when the
context has recovery data for this computation at the current cursor (without
invoking `fn`), otherwise invoke `fn`, save its result and return it; the
cursor increments by one in both branches.  `fnResult` is the value the
callback would produce. -/
def PersistentComputation.step
    (rd : RecoveryData) (inst : CompInstance) (fnResult : Value) : StepOut :=
  if PersistentComputationContext.hasRecoveryData rd inst.className inst.currentStepIndex then
    { result := PersistentComputationContext.getStepValue rd inst.className inst.currentStepIndex
      rd := rd
      inst := { inst with currentStepIndex := inst.currentStepIndex + 1 }
      fnInvoked := false }
  else
    { result := fnResult
      rd := PersistentComputationContext.save rd none inst.className (some fnResult)
      inst := { inst with currentStepIndex := inst.currentStepIndex + 1 }
      fnInvoked := true }

/-- Result of executing a computation's `run` method: its outcome, the updated
recovery data, the final instance state, and the number of step callbacks
invoked. -/
structure ExecOut where
  result : Except Err Value
  rd : RecoveryData
  inst : CompInstance
  calls : Nat

/-- Executes a computation's `run` method, driving each `step` boundary in
program order through `PersistentComputation.step`. -/
def execProg (inst : CompInstance) (rd : RecoveryData) : Prog → ExecOut
  | .ret v => ⟨.ok v, rd, inst, 0⟩
  | .throwErr e => ⟨.error e, rd, inst, 0⟩
  | .step fn k =>
      let s := PersistentComputation.step rd inst fn
      let rest := execProg s.inst s.rd (k s.result)
      { rest with calls := (if s.fnInvoked then 1 else 0) + rest.calls }

/-- Payload stored at the recovery location, identified with its decoded value;
`none` models content whose decoded value is JS-falsy. -/
def Bytes := Option RecoveryData

/-- Mirrors the transformer's `serialize` (a perfect codec on the model domain). -/
def serialize (rd : RecoveryData) : Bytes := some rd

/-- Mirrors the transformer's `deserialize`; `none` is a JS-falsy decoded value. -/
def deserialize (b : Bytes) : Option RecoveryData := b

/-- Content of the configured `recoveryDataLocation`: `none` when no file
exists there. -/
structure World where
  stored : Option Bytes

/-- Transport operations issued against the recovery location. -/
inductive Event where
  | existsCheck : Event
  | readOp : Event
  | writeOp : Event
deriving DecidableEq, Repr

/-- Fault injection for the transport and transformer capabilities: `some e`
makes the corresponding operation raise `e`. -/
structure Faults where
  existsFault : Option Err := none
  readFault : Option Err := none
  writeFault : Option Err := none
  serializeFault : Option Err := none
  deserializeFault : Option Err := none

/-- The healthy default capabilities (local filesystem transport, v8 codec). -/
def noFaults : Faults := {}

/-- Recognized construction options relevant to the core's control flow.
`recoveryDataLocation` is modelled by `World` (the single configured location);
`logger` and `debugLevel` only gate log output and are not modelled. -/
structure PersistentComputationContextOptions where
  fromScratch : Bool := false

/-- Mirrors `sameDeps(currentDeps, recoveredDeps)`: `fastDeepEqual`. -/
def sameDeps (currentDeps recoveredDeps : Value) : Bool :=
  fastDeepEqual currentDeps recoveredDeps

/-- Outcome of `maybeRecover`: the recovered flag (or a propagated fault), the
context's recovery data afterwards, and the transport events issued. -/
structure RecoverOut where
  result : Except Err Bool
  rd : RecoveryData
  events : List Event

/-- Mirrors `PersistentComputationContext.maybeRecover`: skip when
`fromScratch`; otherwise check existence, read and deserialize the stored
payload, reject a falsy decoded value, and adopt the loaded data wholesale
exactly when the dependencies compare equal. -/
def maybeRecover (f : Faults) (opts : PersistentComputationContextOptions)
    (rd0 : RecoveryData) (w : World) : RecoverOut :=
  if opts.fromScratch then ⟨.ok false, rd0, []⟩
  else
    match f.existsFault with
    | some e => ⟨.error e, rd0, [.existsCheck]⟩
    | none =>
      match w.stored with
      | none => ⟨.ok false, rd0, [.existsCheck]⟩
      | some data =>
        match f.readFault with
        | some e => ⟨.error e, rd0, [.existsCheck, .readOp]⟩
        | none =>
          match f.deserializeFault with
          | some e => ⟨.error e, rd0, [.existsCheck, .readOp]⟩
          | none =>
            match deserialize data with
            | none => ⟨.ok false, rd0, [.existsCheck, .readOp]⟩
            | some recoveryData =>
              if sameDeps rd0.dependencies recoveryData.dependencies then
                ⟨.ok true, recoveryData, [.existsCheck, .readOp]⟩
              else
                ⟨.ok false, rd0, [.existsCheck, .readOp]⟩

/-- Outcome of `flushRecoveryData`: success or a propagated fault, the world
afterwards, and the transport events issued. -/
structure FlushOut where
  result : Except Err Unit
  world : World
  events : List Event

/-- Mirrors `PersistentComputationContext.flushRecoveryData`: serialize the
full recovery data and write it to the configured location, replacing any prior
content. -/
def flushRecoveryData (f : Faults) (rd : RecoveryData) (w : World) : FlushOut :=
  match f.serializeFault with
  | some e => ⟨.error e, w, []⟩
  | none =>
    match f.writeFault with
    | some e => ⟨.error e, w, [.writeOp]⟩
    | none => ⟨.ok (), ⟨some (serialize rd)⟩, [.writeOp]⟩

/-- Element of the list passed to `run`.  The source iterates
`for (const Computation of computationClasses)` and unconditionally evaluates
`new Computation(this)`, so an entry is either a class (a constructor) or some
other value — in particular an already-constructed computation instance. -/
inductive RunListEntry where
  | classRef (c : ComputationClass) : RunListEntry
  | instanceRef (c : ComputationClass) (inst : CompInstance) : RunListEntry

/-- JavaScript semantics of `new Computation(this)`: constructing from a class
yields a fresh instance; `new` applied to a non-constructor (such as an
already-constructed instance) raises a TypeError. -/
def newComputation : RunListEntry → Except Err (ComputationClass × CompInstance)
  | .classRef c => .ok (c, newInstance c.name)
  | .instanceRef _ _ => .error (.typeError "Computation is not a constructor")

/-- One element of the in-memory `#results` list:
`{ name: computation.constructor.name, value }`. -/
structure RunResult where
  name : String
  value : Value
deriving DecidableEq, Repr

/-- In-memory state of a `PersistentComputationContext`: the private `#results`
list and the current `recoveryData`. -/
structure ContextState where
  results : List RunResult
  recoveryData : RecoveryData
deriving DecidableEq, Repr

/-- Constructor of `PersistentComputationContext`: empty results, a fresh
recovery data object with an empty computations map and the caller-supplied
dependency description. -/
def newContext (dependencies : Value) : ContextState :=
  { results := []
    recoveryData := { computations := [], dependencies := dependencies, error := none } }

/-- Mirrors `pushResult(computation, value)`. -/
def pushResult (ctx : ContextState) (className : String) (value : Value) : ContextState :=
  { ctx with results := ctx.results ++ [⟨className, value⟩] }

/-- Mirrors `getLastResult()` (`this.#results.at(-1)`). -/
def getLastResult (ctx : ContextState) : Option RunResult :=
  ctx.results.getLast?

/-- Mirrors `getResultByName(computationName)` (`find` over `#results`). -/
def getResultByName (ctx : ContextState) (computationName : String) : Option RunResult :=
  ctx.results.find? (fun result => result.name == computationName)

/-- Outcome of the Runner's execution loop: the threaded computation value (or
a propagated error), the context and world afterwards, the transport events
issued, and the number of step callbacks invoked. -/
structure LoopOut where
  result : Except Err Value
  ctx : ContextState
  world : World
  events : List Event
  calls : Nat

/-- The `for (const Computation of computationClasses)` loop of `run`:
construct each entry, mark it recovered when the run was, execute its `run`
method with the previous computation's value; on success push the result and
continue, on failure record the error, flush the full recovery data and raise
`ComputationFailedError` (a failing flush raises its own fault instead). -/
def runLoop (f : Faults) (recovered : Bool) :
    List RunListEntry → Value → ContextState → World → LoopOut
  | [], computationValue, ctx, w => ⟨.ok computationValue, ctx, w, [], 0⟩
  | entry :: rest, computationValue, ctx, w =>
    match newComputation entry with
    | .error e => ⟨.error e, ctx, w, [], 0⟩
    | .ok (c, inst0) =>
      let inst1 := if recovered then markRecovered inst0 else inst0
      let ex := execProg inst1 ctx.recoveryData (c.run computationValue)
      match ex.result with
      | .ok v =>
        let ctx1 := pushResult { ctx with recoveryData := ex.rd } inst1.className v
        let restOut := runLoop f recovered rest v ctx1 w
        ⟨restOut.result, restOut.ctx, restOut.world, restOut.events, ex.calls + restOut.calls⟩
      | .error err =>
        let rdErr := PersistentComputationContext.save ex.rd (some err) inst1.className none
        let ctx1 := { ctx with recoveryData := rdErr }
        let fl := flushRecoveryData f rdErr w
        match fl.result with
        | .error fe => ⟨.error fe, ctx1, fl.world, fl.events, ex.calls⟩
        | .ok _ =>
            ⟨.error (.computationFailedError inst1.className err), ctx1, fl.world, fl.events, ex.calls⟩

/-- Outcome of `run`: the final result (`getLastResult()`) or a propagated
error, the context and world afterwards, the transport events issued, and the
number of step callbacks invoked. -/
structure RunOut where
  result : Except Err (Option RunResult)
  ctx : ContextState
  world : World
  events : List Event
  calls : Nat

/-- Mirrors `PersistentComputationContext.run(computationClasses, input)`:
decide recovery via `maybeRecover` (its faults propagate), then drive the
computation loop; on success return `getLastResult()`. -/
def PersistentComputationContext.run (f : Faults)
    (opts : PersistentComputationContextOptions) (entries : List RunListEntry)
    (input : Value) (ctx : ContextState) (w : World) : RunOut :=
  let mr := maybeRecover f opts ctx.recoveryData w
  match mr.result with
  | .error e => ⟨.error e, ctx, w, mr.events, 0⟩
  | .ok recovered =>
    let ctx0 := { ctx with recoveryData := mr.rd }
    let lp := runLoop f recovered entries input ctx0 w
    match lp.result with
    | .error e => ⟨.error e, lp.ctx, lp.world, mr.events ++ lp.events, lp.calls⟩
    | .ok _ => ⟨.ok (getLastResult lp.ctx), lp.ctx, lp.world, mr.events ++ lp.events, lp.calls⟩

/-- Length of the stored step-result list for `className` (0 when absent). -/
def lenComp (rd : RecoveryData) (className : String) : Nat :=
  ((findComp rd.computations className).getD []).length

/-- Stored step result for `className` at position `i` (`undefined` when absent). -/
def entryAt (rd : RecoveryData) (className : String) (i : Nat) : Value :=
  ((findComp rd.computations className).getD []).getD i .vUndefined

/-- `covers big small`: for every computation name, the step-result list stored
in `small` is an initial segment of the one stored in `big`. -/
def covers (big small : RecoveryData) : Prop :=
  ∀ m, lenComp small m ≤ lenComp big m ∧
    ∀ j, j < lenComp small m → entryAt big m j = entryAt small m j

/-- Demo computation subclass with runtime class name `DemoStep` and a `run`
method performing a single step whose callback produces the number 1. -/
def demoStepClass : ComputationClass :=
  ⟨"DemoStep", fun _ => .step (.vInt 1) (fun v => .ret v)⟩

/-- Demo computation subclass whose `run` method raises a
`BaseComputationError` without performing any step. -/
def throwingClass : ComputationClass :=
  ⟨"ThrowingComputation", fun _ => .throwErr (.baseComputationError "ComputationErrorMessage")⟩

theorem findComp_updateComp_self (comps : List (String × List Value)) (name : String)
    (v : Value) :
    findComp (updateComp comps name v) name = some ((findComp comps name).getD [] ++ [v]) := by
  induction comps with
  | nil => simp [findComp, updateComp]
  | cons hd rest ih =>
    obtain ⟨n, l⟩ := hd
    by_cases h : n = name
    · simp [findComp, updateComp, h]
    · simp [findComp, updateComp, h, ih]

theorem findComp_updateComp_other (comps : List (String × List Value)) (name other : String)
    (v : Value) (h : other ≠ name) :
    findComp (updateComp comps name v) other = findComp comps other := by
  induction comps with
  | nil => simp [findComp, updateComp, Ne.symm h]
  | cons hd rest ih =>
    obtain ⟨n, l⟩ := hd
    by_cases hn : n = name
    · subst hn
      simp [findComp, updateComp, Ne.symm h]
    · simp [findComp, updateComp, hn, ih]

theorem hasRecoveryData_eq (rd : RecoveryData) (cn : String) (i : Nat) :
    PersistentComputationContext.hasRecoveryData rd cn i = decide (i < lenComp rd cn) := by
  unfold PersistentComputationContext.hasRecoveryData lenComp
  cases h : findComp rd.computations cn with
  | none => simp
  | some l =>
    by_cases hle : l.length ≤ i
    · simp [hle, Nat.not_lt.mpr hle]
    · simp [hle, Nat.not_le.mp hle]

theorem getStepValue_eq_entryAt (rd : RecoveryData) (cn : String) (i : Nat) :
    PersistentComputationContext.getStepValue rd cn i = entryAt rd cn i := rfl

theorem lenComp_save_step (rd : RecoveryData) (cn : String) (v : Value) :
    lenComp (PersistentComputationContext.save rd none cn (some v)) cn = lenComp rd cn + 1 := by
  simp [PersistentComputationContext.save, lenComp, findComp_updateComp_self]

theorem entryAt_save_step_self (rd : RecoveryData) (cn : String) (v : Value) :
    entryAt (PersistentComputationContext.save rd none cn (some v)) cn (lenComp rd cn) = v := by
  simp [PersistentComputationContext.save, entryAt, lenComp, findComp_updateComp_self]

theorem entryAt_save_step_old (rd : RecoveryData) (cn : String) (v : Value) (j : Nat)
    (hj : j < lenComp rd cn) :
    entryAt (PersistentComputationContext.save rd none cn (some v)) cn j = entryAt rd cn j := by
  simp only [PersistentComputationContext.save, entryAt, findComp_updateComp_self,
    Option.getD_some]
  exact List.getD_append _ _ _ _ hj

theorem findComp_save_step_other (rd : RecoveryData) (cn other : String) (v : Value)
    (h : other ≠ cn) :
    findComp (PersistentComputationContext.save rd none cn (some v)).computations other
      = findComp rd.computations other := by
  simp [PersistentComputationContext.save, findComp_updateComp_other _ _ _ _ h]

theorem save_step_dependencies (rd : RecoveryData) (cn : String) (v : Value) :
    (PersistentComputationContext.save rd none cn (some v)).dependencies = rd.dependencies := rfl

theorem save_step_error (rd : RecoveryData) (cn : String) (v : Value) :
    (PersistentComputationContext.save rd none cn (some v)).error = rd.error := rfl

theorem save_error_computations (rd : RecoveryData) (e : Err) (cn : String) :
    (PersistentComputationContext.save rd (some e) cn none).computations = rd.computations := rfl

theorem save_error_dependencies (rd : RecoveryData) (e : Err) (cn : String) :
    (PersistentComputationContext.save rd (some e) cn none).dependencies = rd.dependencies := rfl

theorem save_error_error (rd : RecoveryData) (e : Err) (cn : String) :
    (PersistentComputationContext.save rd (some e) cn none).error = some e := rfl

/-- C1: for every `step` call at a well-formed instance state (the cursor does
not exceed the stored list's length, which holds for every reachable state):
when the snapshot holds a list for this computation whose length exceeds the
cursor, the stored value at the cursor is returned — with no condition on that
value, so in particular also when it is falsy — the callback is never invoked
and the recovery data is unchanged; otherwise the callback is invoked and its
result is placed at the cursor position of the (possibly freshly created) list,
preserving all existing entries, and returned.  In both branches the cursor
increments by exactly one. -/
theorem step_replay_or_compute (rd : RecoveryData) (inst : CompInstance) (fnResult : Value)
    (hwf : inst.currentStepIndex ≤ lenComp rd inst.className) :
    ((PersistentComputation.step rd inst fnResult).inst.currentStepIndex
        = inst.currentStepIndex + 1) ∧
    (inst.currentStepIndex < lenComp rd inst.className →
      (PersistentComputation.step rd inst fnResult).result
          = entryAt rd inst.className inst.currentStepIndex ∧
      (PersistentComputation.step rd inst fnResult).fnInvoked = false ∧
      (PersistentComputation.step rd inst fnResult).rd = rd) ∧
    (¬ inst.currentStepIndex < lenComp rd inst.className →
      (PersistentComputation.step rd inst fnResult).fnInvoked = true ∧
      (PersistentComputation.step rd inst fnResult).result = fnResult ∧
      entryAt (PersistentComputation.step rd inst fnResult).rd inst.className
          inst.currentStepIndex = fnResult ∧
      lenComp (PersistentComputation.step rd inst fnResult).rd inst.className
          = inst.currentStepIndex + 1 ∧
      (∀ j, j < inst.currentStepIndex →
        entryAt (PersistentComputation.step rd inst fnResult).rd inst.className j
            = entryAt rd inst.className j)) := by
  by_cases hlt : inst.currentStepIndex < lenComp rd inst.className
  · have hd : PersistentComputationContext.hasRecoveryData rd inst.className
        inst.currentStepIndex = true := by
      rw [hasRecoveryData_eq]; exact decide_eq_true hlt
    simp [PersistentComputation.step, hd, getStepValue_eq_entryAt, hlt]
  · have hd : PersistentComputationContext.hasRecoveryData rd inst.className
        inst.currentStepIndex = false := by
      rw [hasRecoveryData_eq]; exact decide_eq_false hlt
    have heq : inst.currentStepIndex = lenComp rd inst.className :=
      Nat.le_antisymm hwf (Nat.not_lt.mp hlt)
    refine ⟨by simp [PersistentComputation.step, hd], fun h => absurd h hlt, fun _ => ?_⟩
    refine ⟨by simp [PersistentComputation.step, hd],
      by simp [PersistentComputation.step, hd], ?_, ?_, ?_⟩
    · simp only [PersistentComputation.step, hd, Bool.false_eq_true, if_false]
      rw [heq]; exact entryAt_save_step_self rd inst.className fnResult
    · simp only [PersistentComputation.step, hd, Bool.false_eq_true, if_false]
      rw [lenComp_save_step, heq]
    · intro j hj
      simp only [PersistentComputation.step, hd, Bool.false_eq_true, if_false]
      exact entryAt_save_step_old rd inst.className fnResult j (by omega)

theorem entryAt_congr {rd1 rd2 : RecoveryData} {m : String}
    (h : findComp rd1.computations m = findComp rd2.computations m) (j : Nat) :
    entryAt rd1 m j = entryAt rd2 m j := by
  unfold entryAt; rw [h]

theorem lenComp_congr {rd1 rd2 : RecoveryData} {m : String}
    (h : findComp rd1.computations m = findComp rd2.computations m) :
    lenComp rd1 m = lenComp rd2 m := by
  unfold lenComp; rw [h]

theorem step_eq_replay {rd : RecoveryData} {inst : CompInstance} {fn : Value}
    (h : PersistentComputationContext.hasRecoveryData rd inst.className
        inst.currentStepIndex = true) :
    PersistentComputation.step rd inst fn
      = ⟨PersistentComputationContext.getStepValue rd inst.className inst.currentStepIndex,
          rd, { inst with currentStepIndex := inst.currentStepIndex + 1 }, false⟩ := by
  simp [PersistentComputation.step, h]

theorem step_eq_fresh {rd : RecoveryData} {inst : CompInstance} {fn : Value}
    (h : PersistentComputationContext.hasRecoveryData rd inst.className
        inst.currentStepIndex = false) :
    PersistentComputation.step rd inst fn
      = ⟨fn, PersistentComputationContext.save rd none inst.className (some fn),
          { inst with currentStepIndex := inst.currentStepIndex + 1 }, true⟩ := by
  simp [PersistentComputation.step, h]

theorem step_state (rd : RecoveryData) (inst : CompInstance) (fn : Value)
    (hwf : inst.currentStepIndex ≤ lenComp rd inst.className) :
    ((PersistentComputation.step rd inst fn).inst.className = inst.className) ∧
    ((PersistentComputation.step rd inst fn).inst.hasRecData = inst.hasRecData) ∧
    ((PersistentComputation.step rd inst fn).inst.currentStepIndex
        = inst.currentStepIndex + 1) ∧
    ((PersistentComputation.step rd inst fn).inst.currentStepIndex
        ≤ lenComp (PersistentComputation.step rd inst fn).rd inst.className) ∧
    ((PersistentComputation.step rd inst fn).rd.dependencies = rd.dependencies) ∧
    ((PersistentComputation.step rd inst fn).rd.error = rd.error) ∧
    (∀ m, m ≠ inst.className →
        findComp (PersistentComputation.step rd inst fn).rd.computations m
          = findComp rd.computations m) ∧
    (∀ m, lenComp rd m ≤ lenComp (PersistentComputation.step rd inst fn).rd m) ∧
    (∀ m j, j < lenComp rd m →
        entryAt (PersistentComputation.step rd inst fn).rd m j = entryAt rd m j) := by
  by_cases hlt : inst.currentStepIndex < lenComp rd inst.className
  · have hd : PersistentComputationContext.hasRecoveryData rd inst.className
        inst.currentStepIndex = true := by
      rw [hasRecoveryData_eq]; exact decide_eq_true hlt
    rw [step_eq_replay hd]
    exact ⟨rfl, rfl, rfl, hlt, rfl, rfl, fun _ _ => rfl, fun _ => Nat.le_refl _,
      fun _ _ _ => rfl⟩
  · have hd : PersistentComputationContext.hasRecoveryData rd inst.className
        inst.currentStepIndex = false := by
      rw [hasRecoveryData_eq]; exact decide_eq_false hlt
    have heq : inst.currentStepIndex = lenComp rd inst.className :=
      Nat.le_antisymm hwf (Nat.not_lt.mp hlt)
    rw [step_eq_fresh hd]
    refine ⟨rfl, rfl, rfl, ?_, save_step_dependencies rd inst.className fn,
      save_step_error rd inst.className fn,
      fun m h => findComp_save_step_other rd inst.className m fn h, ?_, ?_⟩
    · rw [lenComp_save_step]
      exact Nat.succ_le_succ hwf
    · intro m
      by_cases hm : m = inst.className
      · subst hm; rw [lenComp_save_step]; exact Nat.le_succ _
      · rw [lenComp_congr (findComp_save_step_other rd inst.className m fn hm)]
    · intro m j hj
      by_cases hm : m = inst.className
      · subst hm; exact entryAt_save_step_old rd inst.className fn j hj
      · exact entryAt_congr (findComp_save_step_other rd inst.className m fn hm) j

theorem execProg_step_unfold (inst : CompInstance) (rd : RecoveryData) (fn : Value)
    (k : Value → Prog) :
    execProg inst rd (.step fn k)
      = { execProg (PersistentComputation.step rd inst fn).inst
            (PersistentComputation.step rd inst fn).rd
            (k (PersistentComputation.step rd inst fn).result) with
          calls := (if (PersistentComputation.step rd inst fn).fnInvoked then 1 else 0)
            + (execProg (PersistentComputation.step rd inst fn).inst
                (PersistentComputation.step rd inst fn).rd
                (k (PersistentComputation.step rd inst fn).result)).calls } := rfl

theorem execProg_facts (p : Prog) : ∀ (inst : CompInstance) (rd : RecoveryData),
    inst.currentStepIndex ≤ lenComp rd inst.className →
    ((execProg inst rd p).inst.className = inst.className ∧
     (execProg inst rd p).inst.hasRecData = inst.hasRecData ∧
     inst.currentStepIndex ≤ (execProg inst rd p).inst.currentStepIndex ∧
     (execProg inst rd p).inst.currentStepIndex
        ≤ lenComp (execProg inst rd p).rd inst.className ∧
     (execProg inst rd p).rd.dependencies = rd.dependencies ∧
     (execProg inst rd p).rd.error = rd.error ∧
     (∀ m, m ≠ inst.className →
        findComp (execProg inst rd p).rd.computations m = findComp rd.computations m) ∧
     (∀ m, lenComp rd m ≤ lenComp (execProg inst rd p).rd m) ∧
     (∀ m j, j < lenComp rd m → entryAt (execProg inst rd p).rd m j = entryAt rd m j)) := by
  induction p with
  | ret v =>
    intro inst rd hwf
    exact ⟨rfl, rfl, Nat.le_refl _, hwf, rfl, rfl, fun _ _ => rfl, fun _ => Nat.le_refl _,
      fun _ _ _ => rfl⟩
  | throwErr e =>
    intro inst rd hwf
    exact ⟨rfl, rfl, Nat.le_refl _, hwf, rfl, rfl, fun _ _ => rfl, fun _ => Nat.le_refl _,
      fun _ _ _ => rfl⟩
  | step fn k ih =>
    intro inst rd hwf
    obtain ⟨s1, s2, s3, s4, s5, s6, s7, s8, s9⟩ := step_state rd inst fn hwf
    have hwf' : (PersistentComputation.step rd inst fn).inst.currentStepIndex
        ≤ lenComp (PersistentComputation.step rd inst fn).rd
            (PersistentComputation.step rd inst fn).inst.className := by
      rw [s1]; exact s4
    obtain ⟨i1, i2, i3, i4, i5, i6, i7, i8, i9⟩ :=
      ih (PersistentComputation.step rd inst fn).result
        (PersistentComputation.step rd inst fn).inst
        (PersistentComputation.step rd inst fn).rd hwf'
    rw [execProg_step_unfold]
    refine ⟨i1.trans s1, i2.trans s2, ?_, ?_, i5.trans s5, i6.trans s6, ?_, ?_, ?_⟩
    · exact Nat.le_trans (s3 ▸ Nat.le_succ _) i3
    · rw [← s1]; exact i4
    · intro m hm
      exact (i7 m (by rw [s1]; exact hm)).trans (s7 m hm)
    · intro m
      exact Nat.le_trans (s8 m) (i8 m)
    · intro m j hj
      exact (i9 m j (Nat.lt_of_lt_of_le hj (s8 m))).trans (s9 m j hj)

theorem step_result_entryAt (rd : RecoveryData) (inst : CompInstance) (fn : Value)
    (hwf : inst.currentStepIndex ≤ lenComp rd inst.className) :
    entryAt (PersistentComputation.step rd inst fn).rd inst.className inst.currentStepIndex
      = (PersistentComputation.step rd inst fn).result := by
  by_cases hlt : inst.currentStepIndex < lenComp rd inst.className
  · have hd : PersistentComputationContext.hasRecoveryData rd inst.className
        inst.currentStepIndex = true := by
      rw [hasRecoveryData_eq]; exact decide_eq_true hlt
    rw [step_eq_replay hd]
    exact (getStepValue_eq_entryAt rd inst.className inst.currentStepIndex).symm
  · have hd : PersistentComputationContext.hasRecoveryData rd inst.className
        inst.currentStepIndex = false := by
      rw [hasRecoveryData_eq]; exact decide_eq_false hlt
    have heq : inst.currentStepIndex = lenComp rd inst.className :=
      Nat.le_antisymm hwf (Nat.not_lt.mp hlt)
    rw [step_eq_fresh hd]
    rw [heq]
    exact entryAt_save_step_self rd inst.className fn

theorem execProg_replay (p : Prog) :
    ∀ (inst : CompInstance) (rd : RecoveryData) (v : Value),
    inst.currentStepIndex ≤ lenComp rd inst.className →
    (execProg inst rd p).result = .ok v →
    ∀ (rd2 : RecoveryData) (b : Bool),
      (∀ j, inst.currentStepIndex ≤ j → j < (execProg inst rd p).inst.currentStepIndex →
        entryAt rd2 inst.className j = entryAt (execProg inst rd p).rd inst.className j) →
      (execProg inst rd p).inst.currentStepIndex ≤ lenComp rd2 inst.className →
      execProg ⟨inst.className, b, inst.currentStepIndex⟩ rd2 p
        = ⟨.ok v, rd2, ⟨inst.className, b, (execProg inst rd p).inst.currentStepIndex⟩, 0⟩ := by
  induction p with
  | ret w =>
    intro inst rd v hwf hok rd2 b hent hlen
    have hv : w = v := by simpa [execProg] using hok
    subst hv
    rfl
  | throwErr e =>
    intro inst rd v hwf hok rd2 b hent hlen
    simp [execProg] at hok
  | step fn k ih =>
    intro inst rd v hwf hok rd2 b hent hlen
    obtain ⟨s1, -, s3, s4, -, -, -, -, -⟩ := step_state rd inst fn hwf
    have hwf' : (PersistentComputation.step rd inst fn).inst.currentStepIndex
        ≤ lenComp (PersistentComputation.step rd inst fn).rd
            (PersistentComputation.step rd inst fn).inst.className := by
      rw [s1]; exact s4
    obtain ⟨-, -, i3, -, -, -, -, -, i9⟩ :=
      execProg_facts (k (PersistentComputation.step rd inst fn).result)
        (PersistentComputation.step rd inst fn).inst
        (PersistentComputation.step rd inst fn).rd hwf'
    have hok' : (execProg (PersistentComputation.step rd inst fn).inst
        (PersistentComputation.step rd inst fn).rd
        (k (PersistentComputation.step rd inst fn).result)).result = .ok v := hok
    have hc1 : inst.currentStepIndex + 1
        ≤ (execProg inst rd (.step fn k)).inst.currentStepIndex := by
      rw [execProg_step_unfold]
      exact s3 ▸ i3
    have hcs : inst.currentStepIndex
        < lenComp (PersistentComputation.step rd inst fn).rd inst.className := by
      have := s3 ▸ s4
      omega
    have hatt : entryAt rd2 inst.className inst.currentStepIndex
        = (PersistentComputation.step rd inst fn).result := by
      refine ((hent inst.currentStepIndex (Nat.le_refl _)
        (Nat.lt_of_lt_of_le (Nat.lt_succ_self _) hc1)).trans ?_).trans
        (step_result_entryAt rd inst fn hwf)
      exact i9 inst.className inst.currentStepIndex hcs
    have hd2 : PersistentComputationContext.hasRecoveryData rd2 inst.className
        inst.currentStepIndex = true := by
      rw [hasRecoveryData_eq]
      exact decide_eq_true (Nat.lt_of_lt_of_le (Nat.lt_of_lt_of_le (Nat.lt_succ_self _) hc1)
        hlen)
    have hstep2 : PersistentComputation.step rd2 ⟨inst.className, b, inst.currentStepIndex⟩ fn
        = ⟨PersistentComputationContext.getStepValue rd2 inst.className inst.currentStepIndex,
            rd2, ⟨inst.className, b, inst.currentStepIndex + 1⟩, false⟩ :=
      step_eq_replay hd2
    have hih := ih (PersistentComputation.step rd inst fn).result
      (PersistentComputation.step rd inst fn).inst
      (PersistentComputation.step rd inst fn).rd v hwf' hok' rd2 b
      (by
        intro j hj1 hj2
        rw [s1]
        exact hent j (by omega : inst.currentStepIndex ≤ j) (by
          rw [execProg_step_unfold]
          exact hj2))
      (by rw [s1]; exact hlen)
    rw [execProg_step_unfold, hstep2]
    have hval : PersistentComputationContext.getStepValue rd2 inst.className
        inst.currentStepIndex = (PersistentComputation.step rd inst fn).result :=
      (getStepValue_eq_entryAt rd2 inst.className inst.currentStepIndex).symm ▸ hatt
    rw [show (⟨PersistentComputationContext.getStepValue rd2 inst.className
          inst.currentStepIndex, rd2,
          ⟨inst.className, b, inst.currentStepIndex + 1⟩, false⟩ : StepOut).result
        = (PersistentComputation.step rd inst fn).result from hval]
    rw [show ((⟨PersistentComputationContext.getStepValue rd2 inst.className
          inst.currentStepIndex, rd2,
          ⟨inst.className, b, inst.currentStepIndex + 1⟩, false⟩ : StepOut).inst : CompInstance)
        = ⟨inst.className, b, inst.currentStepIndex + 1⟩ from rfl]
    have hfin : execProg (⟨inst.className, b, inst.currentStepIndex + 1⟩ : CompInstance) rd2
        (k (PersistentComputation.step rd inst fn).result)
        = ⟨.ok v, rd2, ⟨inst.className, b,
            (execProg (PersistentComputation.step rd inst fn).inst
              (PersistentComputation.step rd inst fn).rd
              (k (PersistentComputation.step rd inst fn).result)).inst.currentStepIndex⟩,
            0⟩ := by
      have h1 : (PersistentComputation.step rd inst fn).inst.className = inst.className := s1
      have h3 : (PersistentComputation.step rd inst fn).inst.currentStepIndex
          = inst.currentStepIndex + 1 := s3
      rw [← h1, ← h3]
      exact hih
    rw [hfin]
    rfl

theorem covers_refl (rd : RecoveryData) : covers rd rd :=
  fun _ => ⟨Nat.le_refl _, fun _ _ => rfl⟩

theorem covers_trans {a b c : RecoveryData} (hab : covers a b) (hbc : covers b c) :
    covers a c := by
  intro m
  obtain ⟨hab1, hab2⟩ := hab m
  obtain ⟨hbc1, hbc2⟩ := hbc m
  exact ⟨Nat.le_trans hbc1 hab1,
    fun j hj => (hab2 j (Nat.lt_of_lt_of_le hj hbc1)).trans (hbc2 j hj)⟩

theorem covers_of_eq_computations {big big' small : RecoveryData}
    (h : big'.computations = big.computations) (hc : covers big small) : covers big' small := by
  intro m
  obtain ⟨h1, h2⟩ := hc m
  have hfind : findComp big'.computations m = findComp big.computations m := by rw [h]
  exact ⟨lenComp_congr hfind ▸ h1, fun j hj => (entryAt_congr hfind j).trans (h2 j hj)⟩

theorem execProg_covers (p : Prog) (inst : CompInstance) (rd : RecoveryData)
    (hwf : inst.currentStepIndex ≤ lenComp rd inst.className) :
    covers (execProg inst rd p).rd rd := by
  obtain ⟨-, -, -, -, -, -, -, i8, i9⟩ := execProg_facts p inst rd hwf
  exact fun m => ⟨i8 m, fun j hj => i9 m j hj⟩

theorem instantiate_eq (r : Bool) (cn : String) :
    (if r then markRecovered (newInstance cn) else newInstance cn)
      = (⟨cn, r, 0⟩ : CompInstance) := by
  cases r <;> rfl

theorem runLoop_nil (f : Faults) (recovered : Bool) (input : Value) (ctx : ContextState)
    (w : World) :
    runLoop f recovered [] input ctx w = ⟨.ok input, ctx, w, [], 0⟩ := rfl

theorem runLoop_cons_instanceRef (f : Faults) (recovered : Bool) (c : ComputationClass)
    (inst : CompInstance) (rest : List RunListEntry) (input : Value) (ctx : ContextState)
    (w : World) :
    runLoop f recovered (.instanceRef c inst :: rest) input ctx w
      = ⟨.error (.typeError "Computation is not a constructor"), ctx, w, [], 0⟩ := rfl

theorem runLoop_cons_ok {f : Faults} {recovered : Bool} {c : ComputationClass}
    {rest : List RunListEntry} {input : Value} {ctx : ContextState} {w : World} {v : Value}
    (hex : (execProg ⟨c.name, recovered, 0⟩ ctx.recoveryData (c.run input)).result = .ok v) :
    runLoop f recovered (.classRef c :: rest) input ctx w
      = ⟨(runLoop f recovered rest v (pushResult { ctx with recoveryData :=
            (execProg ⟨c.name, recovered, 0⟩ ctx.recoveryData (c.run input)).rd } c.name v)
            w).result,
         (runLoop f recovered rest v (pushResult { ctx with recoveryData :=
            (execProg ⟨c.name, recovered, 0⟩ ctx.recoveryData (c.run input)).rd } c.name v)
            w).ctx,
         (runLoop f recovered rest v (pushResult { ctx with recoveryData :=
            (execProg ⟨c.name, recovered, 0⟩ ctx.recoveryData (c.run input)).rd } c.name v)
            w).world,
         (runLoop f recovered rest v (pushResult { ctx with recoveryData :=
            (execProg ⟨c.name, recovered, 0⟩ ctx.recoveryData (c.run input)).rd } c.name v)
            w).events,
         (execProg ⟨c.name, recovered, 0⟩ ctx.recoveryData (c.run input)).calls
           + (runLoop f recovered rest v (pushResult { ctx with recoveryData :=
              (execProg ⟨c.name, recovered, 0⟩ ctx.recoveryData (c.run input)).rd } c.name v)
              w).calls⟩ := by
  simp only [runLoop, newComputation, instantiate_eq]
  rw [hex]

theorem runLoop_cons_error {f : Faults} {recovered : Bool} {c : ComputationClass}
    {rest : List RunListEntry} {input : Value} {ctx : ContextState} {w : World} {err : Err}
    (hex : (execProg ⟨c.name, recovered, 0⟩ ctx.recoveryData (c.run input)).result
        = .error err) :
    runLoop f recovered (.classRef c :: rest) input ctx w
      = (match (flushRecoveryData f (PersistentComputationContext.save
            (execProg ⟨c.name, recovered, 0⟩ ctx.recoveryData (c.run input)).rd (some err)
            c.name none) w).result with
         | .error fe =>
            ⟨.error fe,
              { ctx with recoveryData := (PersistentComputationContext.save
                  (execProg ⟨c.name, recovered, 0⟩ ctx.recoveryData (c.run input)).rd
                  (some err) c.name none) },
              (flushRecoveryData f (PersistentComputationContext.save
                (execProg ⟨c.name, recovered, 0⟩ ctx.recoveryData (c.run input)).rd (some err)
                c.name none) w).world,
              (flushRecoveryData f (PersistentComputationContext.save
                (execProg ⟨c.name, recovered, 0⟩ ctx.recoveryData (c.run input)).rd (some err)
                c.name none) w).events,
              (execProg ⟨c.name, recovered, 0⟩ ctx.recoveryData (c.run input)).calls⟩
         | .ok _ =>
            ⟨.error (.computationFailedError c.name err),
              { ctx with recoveryData := (PersistentComputationContext.save
                  (execProg ⟨c.name, recovered, 0⟩ ctx.recoveryData (c.run input)).rd
                  (some err) c.name none) },
              (flushRecoveryData f (PersistentComputationContext.save
                (execProg ⟨c.name, recovered, 0⟩ ctx.recoveryData (c.run input)).rd (some err)
                c.name none) w).world,
              (flushRecoveryData f (PersistentComputationContext.save
                (execProg ⟨c.name, recovered, 0⟩ ctx.recoveryData (c.run input)).rd (some err)
                c.name none) w).events,
              (execProg ⟨c.name, recovered, 0⟩ ctx.recoveryData (c.run input)).calls⟩) := by
  simp only [runLoop, newComputation, instantiate_eq]
  rw [hex]

theorem flush_events (f : Faults) (rd : RecoveryData) (w : World) :
    ∀ e ∈ (flushRecoveryData f rd w).events, e = Event.writeOp := by
  unfold flushRecoveryData
  cases f.serializeFault with
  | some e => simp
  | none =>
    cases f.writeFault with
    | some e => simp
    | none => simp

theorem runLoop_facts (f : Faults) (recovered : Bool) (entries : List RunListEntry) :
    ∀ (input : Value) (ctx : ContextState) (w : World),
    covers (runLoop f recovered entries input ctx w).ctx.recoveryData ctx.recoveryData ∧
    (runLoop f recovered entries input ctx w).ctx.recoveryData.dependencies
        = ctx.recoveryData.dependencies ∧
    (∃ ds, (runLoop f recovered entries input ctx w).ctx.results = ctx.results ++ ds) ∧
    (∀ e ∈ (runLoop f recovered entries input ctx w).events, e = Event.writeOp) := by
  induction entries with
  | nil =>
    intro input ctx w
    rw [runLoop_nil]
    exact ⟨covers_refl _, rfl, ⟨[], (List.append_nil _).symm⟩, by simp⟩
  | cons entry rest ih =>
    intro input ctx w
    cases entry with
    | instanceRef c inst =>
      rw [runLoop_cons_instanceRef]
      exact ⟨covers_refl _, rfl, ⟨[], (List.append_nil _).symm⟩, by simp⟩
    | classRef c =>
      have hdeps : (execProg ⟨c.name, recovered, 0⟩ ctx.recoveryData (c.run input)).rd.dependencies
          = ctx.recoveryData.dependencies :=
        (execProg_facts (c.run input) ⟨c.name, recovered, 0⟩ ctx.recoveryData
          (Nat.zero_le _)).2.2.2.2.1
      have hcov : covers (execProg ⟨c.name, recovered, 0⟩ ctx.recoveryData (c.run input)).rd
          ctx.recoveryData :=
        execProg_covers (c.run input) ⟨c.name, recovered, 0⟩ ctx.recoveryData (Nat.zero_le _)
      cases hex : (execProg ⟨c.name, recovered, 0⟩ ctx.recoveryData (c.run input)).result with
      | ok v =>
        rw [runLoop_cons_ok hex]
        obtain ⟨ih1, ih2, ⟨ds, ihds⟩, ih4⟩ := ih v
          (pushResult { ctx with recoveryData :=
            (execProg ⟨c.name, recovered, 0⟩ ctx.recoveryData (c.run input)).rd } c.name v) w
        refine ⟨covers_trans ih1 hcov, ih2.trans hdeps, ?_, ih4⟩
        refine ⟨⟨c.name, v⟩ :: ds, ?_⟩
        rw [ihds]
        simp [pushResult]
      | error err =>
        rw [runLoop_cons_error hex]
        have hcov' : covers (PersistentComputationContext.save
            (execProg ⟨c.name, recovered, 0⟩ ctx.recoveryData (c.run input)).rd (some err)
            c.name none) ctx.recoveryData :=
          covers_of_eq_computations (save_error_computations _ _ _) hcov
        have hdeps' : (PersistentComputationContext.save
            (execProg ⟨c.name, recovered, 0⟩ ctx.recoveryData (c.run input)).rd (some err)
            c.name none).dependencies = ctx.recoveryData.dependencies :=
          (save_error_dependencies _ _ _).trans hdeps
        cases hfl : (flushRecoveryData f (PersistentComputationContext.save
            (execProg ⟨c.name, recovered, 0⟩ ctx.recoveryData (c.run input)).rd (some err)
            c.name none) w).result with
        | error fe =>
          exact ⟨hcov', hdeps', ⟨[], (List.append_nil _).symm⟩, flush_events f _ w⟩
        | ok u =>
          exact ⟨hcov', hdeps', ⟨[], (List.append_nil _).symm⟩, flush_events f _ w⟩

theorem runLoop_cons_error_result {f : Faults} {recovered : Bool} {c : ComputationClass}
    {rest : List RunListEntry} {input : Value} {ctx : ContextState} {w : World} {err : Err}
    (hex : (execProg ⟨c.name, recovered, 0⟩ ctx.recoveryData (c.run input)).result
        = .error err) :
    ∃ e, (runLoop f recovered (.classRef c :: rest) input ctx w).result = .error e := by
  rw [runLoop_cons_error hex]
  cases (flushRecoveryData f (PersistentComputationContext.save
      (execProg ⟨c.name, recovered, 0⟩ ctx.recoveryData (c.run input)).rd (some err)
      c.name none) w).result with
  | error fe => exact ⟨fe, rfl⟩
  | ok u => exact ⟨.computationFailedError c.name err, rfl⟩

theorem runLoop_replay (f : Faults) (cs : List ComputationClass) :
    ∀ (input : Value) (ctx1 : ContextState) (w1 : World) (v : Value) (rec1 : Bool),
    (runLoop f rec1 (cs.map .classRef) input ctx1 w1).result = .ok v →
    ∀ (rec2 : Bool) (ctx2 : ContextState) (w2 : World),
      ctx2.recoveryData = (runLoop f rec1 (cs.map .classRef) input ctx1 w1).ctx.recoveryData →
      (runLoop f rec2 (cs.map .classRef) input ctx2 w2).result = .ok v ∧
      (runLoop f rec2 (cs.map .classRef) input ctx2 w2).calls = 0 ∧
      (runLoop f rec2 (cs.map .classRef) input ctx2 w2).world = w2 ∧
      (runLoop f rec2 (cs.map .classRef) input ctx2 w2).ctx.recoveryData
        = ctx2.recoveryData ∧
      (runLoop f rec2 (cs.map .classRef) input ctx2 w2).events = [] ∧
      ∃ ds, (runLoop f rec1 (cs.map .classRef) input ctx1 w1).ctx.results
              = ctx1.results ++ ds ∧
            (runLoop f rec2 (cs.map .classRef) input ctx2 w2).ctx.results
              = ctx2.results ++ ds := by
  induction cs with
  | nil =>
    intro input ctx1 w1 v rec1 hok rec2 ctx2 w2 hrd
    rw [List.map_nil] at hok ⊢
    rw [runLoop_nil] at hok
    rw [runLoop_nil]
    exact ⟨hok, rfl, rfl, rfl, rfl, ⟨[], (List.append_nil _).symm, (List.append_nil _).symm⟩⟩
  | cons c cs ih =>
    intro input ctx1 w1 v rec1 hok rec2 ctx2 w2 hrd
    rw [List.map_cons] at hok hrd ⊢
    cases hex1 : (execProg ⟨c.name, rec1, 0⟩ ctx1.recoveryData (c.run input)).result with
    | error err =>
      obtain ⟨e, he⟩ := @runLoop_cons_error_result f rec1 c (cs.map .classRef) input
        ctx1 w1 err hex1
      rw [he] at hok
      exact absurd hok (by simp)
    | ok v1 =>
      rw [runLoop_cons_ok hex1] at hok hrd
      have hokT : (runLoop f rec1 (cs.map .classRef) v1
          (pushResult { ctx1 with recoveryData :=
            (execProg ⟨c.name, rec1, 0⟩ ctx1.recoveryData (c.run input)).rd } c.name v1)
          w1).result = .ok v := hok
      have hrdT : ctx2.recoveryData = (runLoop f rec1 (cs.map .classRef) v1
          (pushResult { ctx1 with recoveryData :=
            (execProg ⟨c.name, rec1, 0⟩ ctx1.recoveryData (c.run input)).rd } c.name v1)
          w1).ctx.recoveryData := hrd
      have hwfc : (execProg ⟨c.name, rec1, 0⟩ ctx1.recoveryData (c.run input)).inst.currentStepIndex
          ≤ lenComp (execProg ⟨c.name, rec1, 0⟩ ctx1.recoveryData (c.run input)).rd c.name :=
        (execProg_facts (c.run input) ⟨c.name, rec1, 0⟩ ctx1.recoveryData (Nat.zero_le _)).2.2.2.1
      have hcovT : covers (runLoop f rec1 (cs.map .classRef) v1
          (pushResult { ctx1 with recoveryData :=
            (execProg ⟨c.name, rec1, 0⟩ ctx1.recoveryData (c.run input)).rd } c.name v1)
          w1).ctx.recoveryData
          (execProg ⟨c.name, rec1, 0⟩ ctx1.recoveryData (c.run input)).rd :=
        (runLoop_facts f rec1 (cs.map .classRef) v1
          (pushResult { ctx1 with recoveryData :=
            (execProg ⟨c.name, rec1, 0⟩ ctx1.recoveryData (c.run input)).rd } c.name v1) w1).1
      have hrepl := execProg_replay (c.run input) ⟨c.name, rec1, 0⟩ ctx1.recoveryData v1
        (Nat.zero_le _) hex1 ctx2.recoveryData rec2
        (by
          intro j hj0 hjlt
          rw [hrdT]
          obtain ⟨-, hc2⟩ := hcovT c.name
          exact hc2 j (Nat.lt_of_lt_of_le hjlt hwfc))
        (by
          rw [hrdT]
          exact Nat.le_trans hwfc (hcovT c.name).1)
      have hex2 : (execProg ⟨c.name, rec2, 0⟩ ctx2.recoveryData (c.run input)).result
          = .ok v1 := by rw [hrepl]
      rw [runLoop_cons_ok hex2]
      have hctx2M : (pushResult { ctx2 with recoveryData :=
          (execProg ⟨c.name, rec2, 0⟩ ctx2.recoveryData (c.run input)).rd } c.name v1)
          = ⟨ctx2.results ++ [⟨c.name, v1⟩], ctx2.recoveryData⟩ := by
        rw [hrepl]
        rfl
      obtain ⟨ihres, ihcalls, ihworld, ihrd, ihev, ds, ihds1, ihds2⟩ :=
        ih v1 (pushResult { ctx1 with recoveryData :=
            (execProg ⟨c.name, rec1, 0⟩ ctx1.recoveryData (c.run input)).rd } c.name v1)
          w1 v rec1 hokT rec2
          ⟨ctx2.results ++ [⟨c.name, v1⟩], ctx2.recoveryData⟩ w2 hrdT
      rw [hctx2M]
      refine ⟨ihres, ?_, ihworld, ihrd, ihev, ?_⟩
      · rw [hrepl] at *
        simp only [ihcalls]
      · refine ⟨⟨c.name, v1⟩ :: ds, ?_, ?_⟩
        · rw [runLoop_cons_ok hex1]
          show (runLoop f rec1 (cs.map .classRef) v1
              (pushResult { ctx1 with recoveryData :=
                (execProg ⟨c.name, rec1, 0⟩ ctx1.recoveryData (c.run input)).rd } c.name v1)
              w1).ctx.results = ctx1.results ++ (⟨c.name, v1⟩ :: ds)
          rw [ihds1]
          simp [pushResult]
        · show (runLoop f rec2 (cs.map .classRef) v1
              (⟨ctx2.results ++ [⟨c.name, v1⟩], ctx2.recoveryData⟩ : ContextState)
              w2).ctx.results = ctx2.results ++ (⟨c.name, v1⟩ :: ds)
          rw [ihds2]
          simp

theorem sameDeps_self (d : Value) : sameDeps d d = true := by
  simp [sameDeps, fastDeepEqual]

theorem maybeRecover_fromScratch (f : Faults) (rd0 : RecoveryData) (w : World) :
    maybeRecover f ⟨true⟩ rd0 w = ⟨.ok false, rd0, []⟩ := rfl

theorem maybeRecover_noFaults_absent (rd0 : RecoveryData) :
    maybeRecover noFaults ⟨false⟩ rd0 ⟨none⟩ = ⟨.ok false, rd0, [.existsCheck]⟩ := rfl

theorem maybeRecover_noFaults_falsy (rd0 : RecoveryData) :
    maybeRecover noFaults ⟨false⟩ rd0 ⟨some none⟩
      = ⟨.ok false, rd0, [.existsCheck, .readOp]⟩ := rfl

theorem maybeRecover_noFaults_same (rd0 rdl : RecoveryData)
    (h : sameDeps rd0.dependencies rdl.dependencies = true) :
    maybeRecover noFaults ⟨false⟩ rd0 ⟨some (some rdl)⟩
      = ⟨.ok true, rdl, [.existsCheck, .readOp]⟩ := by
  unfold maybeRecover
  simp [noFaults, deserialize, h]

theorem maybeRecover_noFaults_diff (rd0 rdl : RecoveryData)
    (h : sameDeps rd0.dependencies rdl.dependencies = false) :
    maybeRecover noFaults ⟨false⟩ rd0 ⟨some (some rdl)⟩
      = ⟨.ok false, rd0, [.existsCheck, .readOp]⟩ := by
  unfold maybeRecover
  simp [noFaults, deserialize, h]

theorem flush_noFaults (rd : RecoveryData) (w : World) :
    flushRecoveryData noFaults rd w = ⟨.ok (), ⟨some (serialize rd)⟩, [.writeOp]⟩ := rfl

theorem run_eq_of_mr_error {f : Faults} {opts : PersistentComputationContextOptions}
    {entries : List RunListEntry} {input : Value} {ctx : ContextState} {w : World}
    {e : Err} {rd1 : RecoveryData} {evs : List Event}
    (hmr : maybeRecover f opts ctx.recoveryData w = ⟨.error e, rd1, evs⟩) :
    PersistentComputationContext.run f opts entries input ctx w
      = ⟨.error e, ctx, w, evs, 0⟩ := by
  unfold PersistentComputationContext.run
  rw [hmr]

theorem run_eq_of_loop_ok {f : Faults} {opts : PersistentComputationContextOptions}
    {entries : List RunListEntry} {input : Value} {ctx : ContextState} {w : World}
    {rec : Bool} {rd1 : RecoveryData} {evs : List Event} {v : Value}
    (hmr : maybeRecover f opts ctx.recoveryData w = ⟨.ok rec, rd1, evs⟩)
    (hlp : (runLoop f rec entries input { ctx with recoveryData := rd1 } w).result = .ok v) :
    PersistentComputationContext.run f opts entries input ctx w
      = ⟨.ok (getLastResult (runLoop f rec entries input
            { ctx with recoveryData := rd1 } w).ctx),
         (runLoop f rec entries input { ctx with recoveryData := rd1 } w).ctx,
         (runLoop f rec entries input { ctx with recoveryData := rd1 } w).world,
         evs ++ (runLoop f rec entries input { ctx with recoveryData := rd1 } w).events,
         (runLoop f rec entries input { ctx with recoveryData := rd1 } w).calls⟩ := by
  unfold PersistentComputationContext.run
  rw [hmr]
  dsimp only
  rw [hlp]

theorem run_eq_of_loop_error {f : Faults} {opts : PersistentComputationContextOptions}
    {entries : List RunListEntry} {input : Value} {ctx : ContextState} {w : World}
    {rec : Bool} {rd1 : RecoveryData} {evs : List Event} {e : Err}
    (hmr : maybeRecover f opts ctx.recoveryData w = ⟨.ok rec, rd1, evs⟩)
    (hlp : (runLoop f rec entries input { ctx with recoveryData := rd1 } w).result
        = .error e) :
    PersistentComputationContext.run f opts entries input ctx w
      = ⟨.error e,
         (runLoop f rec entries input { ctx with recoveryData := rd1 } w).ctx,
         (runLoop f rec entries input { ctx with recoveryData := rd1 } w).world,
         evs ++ (runLoop f rec entries input { ctx with recoveryData := rd1 } w).events,
         (runLoop f rec entries input { ctx with recoveryData := rd1 } w).calls⟩ := by
  unfold PersistentComputationContext.run
  rw [hmr]
  dsimp only
  rw [hlp]

/-- C2: with healthy capabilities, an unchanged computation sequence and an
unchanged dependency description, a second `run()` by a freshly constructed
Runner against a location whose stored content is the serialized snapshot left
behind by a first successful `run()` (as an explicit flush persists it) invokes
zero step callbacks and produces the same result and the same RunResult list
as the first run. -/
theorem second_run_replays (cs : List ComputationClass) (deps input : Value)
    (r : Option RunResult) (w2 : World)
    (hok : (PersistentComputationContext.run noFaults ⟨false⟩ (cs.map .classRef) input
        (newContext deps) ⟨none⟩).result = .ok r)
    (hw2 : w2.stored = some (serialize
        (PersistentComputationContext.run noFaults ⟨false⟩ (cs.map .classRef) input
          (newContext deps) ⟨none⟩).ctx.recoveryData)) :
    (PersistentComputationContext.run noFaults ⟨false⟩ (cs.map .classRef) input
        (newContext deps) w2).calls = 0 ∧
    (PersistentComputationContext.run noFaults ⟨false⟩ (cs.map .classRef) input
        (newContext deps) w2).result = .ok r ∧
    (PersistentComputationContext.run noFaults ⟨false⟩ (cs.map .classRef) input
        (newContext deps) w2).ctx.results
      = (PersistentComputationContext.run noFaults ⟨false⟩ (cs.map .classRef) input
          (newContext deps) ⟨none⟩).ctx.results := by
  obtain ⟨st⟩ := w2
  cases hL : (runLoop noFaults false (cs.map .classRef) input (newContext deps)
      ⟨none⟩).result with
  | error e =>
    have h1 := @run_eq_of_loop_error noFaults ⟨false⟩ (cs.map .classRef) input
      (newContext deps) ⟨none⟩ false ((newContext deps).recoveryData) [.existsCheck] e
      (maybeRecover_noFaults_absent (newContext deps).recoveryData) hL
    rw [h1] at hok
    simp at hok
  | ok vlast =>
    have h1 := @run_eq_of_loop_ok noFaults ⟨false⟩ (cs.map .classRef) input
      (newContext deps) ⟨none⟩ false ((newContext deps).recoveryData) [.existsCheck] vlast
      (maybeRecover_noFaults_absent (newContext deps).recoveryData) hL
    rw [h1] at hok hw2
    dsimp only at hok hw2
    injection hok with hr
    subst hr
    subst hw2
    have hdeps : (runLoop noFaults false (cs.map .classRef) input (newContext deps)
        ⟨none⟩).ctx.recoveryData.dependencies = (newContext deps).recoveryData.dependencies :=
      (runLoop_facts noFaults false (cs.map .classRef) input (newContext deps) ⟨none⟩).2.1
    have hmr2 : maybeRecover noFaults ⟨false⟩ (newContext deps).recoveryData
        ⟨some (serialize (runLoop noFaults false (cs.map .classRef) input (newContext deps)
          ⟨none⟩).ctx.recoveryData)⟩
        = ⟨.ok true,
           (runLoop noFaults false (cs.map .classRef) input (newContext deps)
             ⟨none⟩).ctx.recoveryData, [.existsCheck, .readOp]⟩ :=
      maybeRecover_noFaults_same _ _ (by rw [hdeps]; exact sameDeps_self _)
    obtain ⟨rl1, rl2, rl3, rl4, rl5, ds, hds1, hds2⟩ :=
      runLoop_replay noFaults cs input (newContext deps) ⟨none⟩ vlast false hL true
        { newContext deps with recoveryData :=
            (runLoop noFaults false (cs.map .classRef) input (newContext deps)
              ⟨none⟩).ctx.recoveryData }
        ⟨some (serialize (runLoop noFaults false (cs.map .classRef) input (newContext deps)
          ⟨none⟩).ctx.recoveryData)⟩ rfl
    have h2 := @run_eq_of_loop_ok noFaults ⟨false⟩ (cs.map .classRef) input
      (newContext deps)
      ⟨some (serialize (runLoop noFaults false (cs.map .classRef) input (newContext deps)
        ⟨none⟩).ctx.recoveryData)⟩ true
      ((runLoop noFaults false (cs.map .classRef) input (newContext deps)
        ⟨none⟩).ctx.recoveryData) [.existsCheck, .readOp] vlast hmr2 rl1
    rw [h2]
    have hres : (runLoop noFaults true (cs.map .classRef) input
        { newContext deps with recoveryData :=
            (runLoop noFaults false (cs.map .classRef) input (newContext deps)
              ⟨none⟩).ctx.recoveryData }
        ⟨some (serialize (runLoop noFaults false (cs.map .classRef) input (newContext deps)
          ⟨none⟩).ctx.recoveryData)⟩).ctx.results
        = (runLoop noFaults false (cs.map .classRef) input (newContext deps)
            ⟨none⟩).ctx.results := by
      rw [hds2, hds1]
    exact ⟨rl2, by rw [getLastResult, getLastResult, hres],
      by rw [h1]; dsimp only; exact hres⟩

/-- Witness for C1 at a concrete state: a snapshot holding the falsy stored
value `false` for computation `A` at cursor 0 is replayed without invoking the
callback. -/
theorem step_replay_or_compute_witness :
    ((newInstance "A").currentStepIndex
        ≤ lenComp ⟨[("A", [Value.vBool false])], Value.vNull, none⟩ (newInstance "A").className) ∧
    ((newInstance "A").currentStepIndex
        < lenComp ⟨[("A", [Value.vBool false])], Value.vNull, none⟩ (newInstance "A").className →
      (PersistentComputation.step ⟨[("A", [Value.vBool false])], Value.vNull, none⟩
          (newInstance "A") (Value.vInt 9)).result
          = entryAt ⟨[("A", [Value.vBool false])], Value.vNull, none⟩ (newInstance "A").className
              (newInstance "A").currentStepIndex ∧
      (PersistentComputation.step ⟨[("A", [Value.vBool false])], Value.vNull, none⟩
          (newInstance "A") (Value.vInt 9)).fnInvoked = false ∧
      (PersistentComputation.step ⟨[("A", [Value.vBool false])], Value.vNull, none⟩
          (newInstance "A") (Value.vInt 9)).rd
          = ⟨[("A", [Value.vBool false])], Value.vNull, none⟩) :=
  ⟨by decide,
   (step_replay_or_compute ⟨[("A", [Value.vBool false])], Value.vNull, none⟩
      (newInstance "A") (Value.vInt 9) (by decide)).2.1⟩

/-- Witness for C2 at a concrete one-step computation: the first run computes
the step, and the second run against the flushed snapshot replays with zero
callbacks and identical results. -/
theorem second_run_replays_witness :
    ((PersistentComputationContext.run noFaults ⟨false⟩ ([demoStepClass].map .classRef)
        .vNull (newContext .vNull) ⟨none⟩).result
        = .ok (some ⟨"DemoStep", .vInt 1⟩)) ∧
    ((⟨some (serialize (PersistentComputationContext.run noFaults ⟨false⟩
        ([demoStepClass].map .classRef) .vNull (newContext .vNull)
        ⟨none⟩).ctx.recoveryData)⟩ : World).stored
      = some (serialize (PersistentComputationContext.run noFaults ⟨false⟩
          ([demoStepClass].map .classRef) .vNull (newContext .vNull)
          ⟨none⟩).ctx.recoveryData)) ∧
    ((PersistentComputationContext.run noFaults ⟨false⟩ ([demoStepClass].map .classRef)
        .vNull (newContext .vNull)
        ⟨some (serialize (PersistentComputationContext.run noFaults ⟨false⟩
          ([demoStepClass].map .classRef) .vNull (newContext .vNull)
          ⟨none⟩).ctx.recoveryData)⟩).calls = 0 ∧
     (PersistentComputationContext.run noFaults ⟨false⟩ ([demoStepClass].map .classRef)
        .vNull (newContext .vNull)
        ⟨some (serialize (PersistentComputationContext.run noFaults ⟨false⟩
          ([demoStepClass].map .classRef) .vNull (newContext .vNull)
          ⟨none⟩).ctx.recoveryData)⟩).result = .ok (some ⟨"DemoStep", .vInt 1⟩) ∧
     (PersistentComputationContext.run noFaults ⟨false⟩ ([demoStepClass].map .classRef)
        .vNull (newContext .vNull)
        ⟨some (serialize (PersistentComputationContext.run noFaults ⟨false⟩
          ([demoStepClass].map .classRef) .vNull (newContext .vNull)
          ⟨none⟩).ctx.recoveryData)⟩).ctx.results
       = (PersistentComputationContext.run noFaults ⟨false⟩ ([demoStepClass].map .classRef)
          .vNull (newContext .vNull) ⟨none⟩).ctx.results) :=
  ⟨rfl, rfl,
   second_run_replays [demoStepClass] .vNull .vNull (some ⟨"DemoStep", .vInt 1⟩)
     ⟨some (serialize (PersistentComputationContext.run noFaults ⟨false⟩
       ([demoStepClass].map .classRef) .vNull (newContext .vNull) ⟨none⟩).ctx.recoveryData)⟩
     rfl rfl⟩

/-- C3: during the recovery decision, with the location present and healthy
capabilities: a falsy decoded snapshot is rejected (not recovered, in-memory
data kept); a truthy decoded snapshot whose dependencies the comparator
reports equal to the Runner's wholly replaces the in-memory recovery data and
the run is marked recovered; on unequal dependencies the loaded snapshot is
discarded and the run is not recovered. -/
theorem maybeRecover_decision (rd0 : RecoveryData) (b : Bytes) :
    (deserialize b = none →
      maybeRecover noFaults ⟨false⟩ rd0 ⟨some b⟩
        = ⟨.ok false, rd0, [.existsCheck, .readOp]⟩) ∧
    (∀ rdl, deserialize b = some rdl →
      (sameDeps rd0.dependencies rdl.dependencies = true →
        maybeRecover noFaults ⟨false⟩ rd0 ⟨some b⟩
          = ⟨.ok true, rdl, [.existsCheck, .readOp]⟩) ∧
      (sameDeps rd0.dependencies rdl.dependencies = false →
        maybeRecover noFaults ⟨false⟩ rd0 ⟨some b⟩
          = ⟨.ok false, rd0, [.existsCheck, .readOp]⟩)) := by
  cases hb : (b : Option RecoveryData) with
  | none =>
    refine ⟨fun _ => maybeRecover_noFaults_falsy rd0, fun rdl hrdl => ?_⟩
    exact absurd hrdl (by simp [deserialize, hb])
  | some rdl0 =>
    constructor
    · intro hnone
      exact absurd hnone (by simp [deserialize])
    · intro rdl hrdl
      simp only [deserialize, Option.some.injEq] at hrdl
      subst hrdl
      exact ⟨maybeRecover_noFaults_same rd0 rdl0, maybeRecover_noFaults_diff rd0 rdl0⟩

/-- Witness for C3 at a concrete stored snapshot with matching dependencies:
the loaded snapshot wholly replaces the in-memory one and the run is marked
recovered. -/
theorem maybeRecover_decision_witness :
    deserialize (some ⟨[("X", [Value.vInt 2])], Value.vInt 7, none⟩)
      = some ⟨[("X", [Value.vInt 2])], Value.vInt 7, none⟩ ∧
    sameDeps (⟨[], Value.vInt 7, none⟩ : RecoveryData).dependencies
      (⟨[("X", [Value.vInt 2])], Value.vInt 7, none⟩ : RecoveryData).dependencies = true ∧
    maybeRecover noFaults ⟨false⟩ ⟨[], Value.vInt 7, none⟩
      ⟨some (some ⟨[("X", [Value.vInt 2])], Value.vInt 7, none⟩)⟩
      = ⟨.ok true, ⟨[("X", [Value.vInt 2])], Value.vInt 7, none⟩,
         [.existsCheck, .readOp]⟩ :=
  ⟨rfl, by decide,
   ((maybeRecover_decision ⟨[], Value.vInt 7, none⟩
      (some ⟨[("X", [Value.vInt 2])], Value.vInt 7, none⟩)).2
      ⟨[("X", [Value.vInt 2])], Value.vInt 7, none⟩ rfl).1 (by decide)⟩

theorem runLoop_ok_events (f : Faults) (recovered : Bool) (entries : List RunListEntry) :
    ∀ (input : Value) (ctx : ContextState) (w : World) (v : Value),
    (runLoop f recovered entries input ctx w).result = .ok v →
    (runLoop f recovered entries input ctx w).events = [] ∧
    (runLoop f recovered entries input ctx w).world = w := by
  induction entries with
  | nil =>
    intro input ctx w v h
    rw [runLoop_nil]
    exact ⟨rfl, rfl⟩
  | cons entry rest ih =>
    intro input ctx w v h
    cases entry with
    | instanceRef c inst =>
      rw [runLoop_cons_instanceRef] at h
      exact absurd h (by simp)
    | classRef c =>
      cases hex : (execProg ⟨c.name, recovered, 0⟩ ctx.recoveryData (c.run input)).result with
      | ok v0 =>
        rw [runLoop_cons_ok hex] at h ⊢
        exact ih v0 (pushResult { ctx with recoveryData :=
          (execProg ⟨c.name, recovered, 0⟩ ctx.recoveryData (c.run input)).rd } c.name v0)
          w v h
      | error err =>
        obtain ⟨e, he⟩ := @runLoop_cons_error_result f recovered c rest input ctx w err hex
        rw [he] at h
        exact absurd h (by simp)

theorem runLoop_append_ok (f : Faults) (recovered : Bool) (xs : List RunListEntry) :
    ∀ (ys : List RunListEntry) (input : Value) (ctx : ContextState) (w : World) (v : Value),
    (runLoop f recovered xs input ctx w).result = .ok v →
    runLoop f recovered (xs ++ ys) input ctx w
      = ⟨(runLoop f recovered ys v (runLoop f recovered xs input ctx w).ctx w).result,
         (runLoop f recovered ys v (runLoop f recovered xs input ctx w).ctx w).ctx,
         (runLoop f recovered ys v (runLoop f recovered xs input ctx w).ctx w).world,
         (runLoop f recovered xs input ctx w).events
           ++ (runLoop f recovered ys v (runLoop f recovered xs input ctx w).ctx w).events,
         (runLoop f recovered xs input ctx w).calls
           + (runLoop f recovered ys v (runLoop f recovered xs input ctx w).ctx w).calls⟩ := by
  induction xs with
  | nil =>
    intro ys input ctx w v h
    rw [runLoop_nil] at h
    injection h with h
    subst h
    rw [List.nil_append, runLoop_nil]
    dsimp only
    rw [Nat.zero_add, List.nil_append]
  | cons entry xs ih =>
    intro ys input ctx w v h
    cases entry with
    | instanceRef c inst =>
      rw [runLoop_cons_instanceRef] at h
      exact absurd h (by simp)
    | classRef c =>
      cases hex : (execProg ⟨c.name, recovered, 0⟩ ctx.recoveryData (c.run input)).result with
      | error err =>
        obtain ⟨e, he⟩ := @runLoop_cons_error_result f recovered c xs input ctx w err hex
        rw [he] at h
        exact absurd h (by simp)
      | ok v0 =>
        rw [runLoop_cons_ok hex] at h
        have h' : (runLoop f recovered xs v0 (pushResult { ctx with recoveryData :=
            (execProg ⟨c.name, recovered, 0⟩ ctx.recoveryData (c.run input)).rd } c.name v0)
            w).result = .ok v := h
        rw [show ((RunListEntry.classRef c :: xs) ++ ys)
            = RunListEntry.classRef c :: (xs ++ ys) from rfl]
        rw [runLoop_cons_ok hex, ih ys v0 _ w v h', runLoop_cons_ok hex]
        dsimp only
        rw [Nat.add_assoc]

theorem maybeRecover_noFaults_shape (opts : PersistentComputationContextOptions)
    (rd0 : RecoveryData) (w : World) :
    ∃ rec rd1 evs, maybeRecover noFaults opts rd0 w = ⟨.ok rec, rd1, evs⟩ ∧
      evs.count Event.readOp ≤ 1 ∧ Event.writeOp ∉ evs := by
  obtain ⟨fs⟩ := opts
  cases fs with
  | true => exact ⟨false, rd0, [], maybeRecover_fromScratch noFaults rd0 w, by decide, by decide⟩
  | false =>
    obtain ⟨st⟩ := w
    cases st with
    | none =>
      exact ⟨false, rd0, [.existsCheck], maybeRecover_noFaults_absent rd0, by decide, by decide⟩
    | some b =>
      cases hb : (b : Option RecoveryData) with
      | none =>
        exact ⟨false, rd0, [.existsCheck, .readOp], maybeRecover_noFaults_falsy rd0,
          by decide, by decide⟩
      | some rdl =>
        cases hsd : sameDeps rd0.dependencies rdl.dependencies with
        | true =>
          exact ⟨true, rdl, [.existsCheck, .readOp],
            maybeRecover_noFaults_same rd0 rdl hsd, by decide, by decide⟩
        | false =>
          exact ⟨false, rd0, [.existsCheck, .readOp],
            maybeRecover_noFaults_diff rd0 rdl hsd, by decide, by decide⟩

theorem runLoop_writes (recovered : Bool) (entries : List RunListEntry) :
    ∀ (input : Value) (ctx : ContextState) (w : World),
    ((runLoop noFaults recovered entries input ctx w).events.count Event.writeOp ≤ 1) ∧
    (((runLoop noFaults recovered entries input ctx w).events.count Event.writeOp = 1) ↔
      ∃ n e, (runLoop noFaults recovered entries input ctx w).result
        = .error (.computationFailedError n e)) := by
  induction entries with
  | nil =>
    intro input ctx w
    rw [runLoop_nil]
    refine ⟨by simp, ?_⟩
    simp
  | cons entry rest ih =>
    intro input ctx w
    cases entry with
    | instanceRef c inst =>
      rw [runLoop_cons_instanceRef]
      refine ⟨by simp, ?_⟩
      simp
    | classRef c =>
      cases hex : (execProg ⟨c.name, recovered, 0⟩ ctx.recoveryData (c.run input)).result with
      | ok v0 =>
        rw [runLoop_cons_ok hex]
        exact ih v0 (pushResult { ctx with recoveryData :=
          (execProg ⟨c.name, recovered, 0⟩ ctx.recoveryData (c.run input)).rd } c.name v0) w
      | error err =>
        rw [runLoop_cons_error hex, flush_noFaults]
        dsimp only
        refine ⟨by simp, ?_⟩
        constructor
        · intro _
          exact ⟨c.name, err, rfl⟩
        · intro _
          simp

/-- C5: with healthy capabilities every `run()` call issues at most one read
and at most one write of the persisted location, and the write occurs exactly
when a computation fails; an explicit flush issues exactly one write whose
content is the entire serialized snapshot, fully replacing any prior content —
there are no partial or append writes. -/
theorem run_read_write_discipline :
    (∀ (opts : PersistentComputationContextOptions) (entries : List RunListEntry)
        (input : Value) (ctx : ContextState) (w : World),
      ((PersistentComputationContext.run noFaults opts entries input ctx w).events.count
          Event.readOp ≤ 1) ∧
      ((PersistentComputationContext.run noFaults opts entries input ctx w).events.count
          Event.writeOp ≤ 1) ∧
      (((PersistentComputationContext.run noFaults opts entries input ctx w).events.count
          Event.writeOp = 1) ↔
        ∃ n e, (PersistentComputationContext.run noFaults opts entries input ctx w).result
          = .error (.computationFailedError n e))) ∧
    (∀ (rd : RecoveryData) (w : World),
      flushRecoveryData noFaults rd w = ⟨.ok (), ⟨some (serialize rd)⟩, [.writeOp]⟩) := by
  refine ⟨?_, fun rd w => flush_noFaults rd w⟩
  intro opts entries input ctx w
  obtain ⟨rec, rd1, evs, hmr, hread, hnw⟩ := maybeRecover_noFaults_shape opts ctx.recoveryData w
  have hevs0 : evs.count Event.writeOp = 0 := List.count_eq_zero.mpr hnw
  cases hlp : (runLoop noFaults rec entries input { ctx with recoveryData := rd1 } w).result with
  | ok v =>
    rw [run_eq_of_loop_ok hmr hlp]
    dsimp only
    obtain ⟨hev, -⟩ := runLoop_ok_events noFaults rec entries input
      { ctx with recoveryData := rd1 } w v hlp
    rw [hev, List.append_nil]
    refine ⟨hread, by rw [hevs0]; exact Nat.zero_le 1, ?_⟩
    rw [hevs0]
    constructor
    · intro h
      exact absurd h (by omega)
    · rintro ⟨n, e, hres⟩
      exact absurd hres (by simp)
  | error e =>
    rw [run_eq_of_loop_error hmr hlp]
    dsimp only
    rw [List.count_append, List.count_append]
    obtain ⟨hw1, hw2⟩ := runLoop_writes rec entries input { ctx with recoveryData := rd1 } w
    have hloopread : (runLoop noFaults rec entries input
        { ctx with recoveryData := rd1 } w).events.count Event.readOp = 0 := by
      apply List.count_eq_zero.mpr
      intro hmem
      have := (runLoop_facts noFaults rec entries input
        { ctx with recoveryData := rd1 } w).2.2.2 _ hmem
      exact absurd this (by decide)
    refine ⟨?_, ?_, ?_⟩
    · rw [hloopread]
      omega
    · rw [hevs0, Nat.zero_add]
      exact hw1
    · rw [hevs0, Nat.zero_add, hw2, hlp]
      simp

/-- C6: with the `fromScratch` option set, `run()` performs no existence check
and no read of the persisted location, regardless of what is stored and of any
capability faults, and the recovery decision returns not-recovered keeping the
in-memory recovery data untouched. -/
theorem fromScratch_skips_recovery (f : Faults) (entries : List RunListEntry)
    (input : Value) (ctx : ContextState) (w : World) :
    maybeRecover f ⟨true⟩ ctx.recoveryData w = ⟨.ok false, ctx.recoveryData, []⟩ ∧
    (PersistentComputationContext.run f ⟨true⟩ entries input ctx w).events.count
      Event.existsCheck = 0 ∧
    (PersistentComputationContext.run f ⟨true⟩ entries input ctx w).events.count
      Event.readOp = 0 := by
  have hloopev := (runLoop_facts f false entries input ctx w).2.2.2
  have hev : (PersistentComputationContext.run f ⟨true⟩ entries input ctx w).events
      = (runLoop f false entries input ctx w).events := by
    cases hlp : (runLoop f false entries input ctx w).result with
    | ok v =>
      rw [run_eq_of_loop_ok (maybeRecover_fromScratch f ctx.recoveryData w) hlp]
      dsimp only
      rw [List.nil_append]
    | error e =>
      rw [run_eq_of_loop_error (maybeRecover_fromScratch f ctx.recoveryData w) hlp]
      dsimp only
      rw [List.nil_append]
  refine ⟨maybeRecover_fromScratch f ctx.recoveryData w, ?_, ?_⟩
  · rw [hev]
    apply List.count_eq_zero.mpr
    intro hmem
    exact absurd (hloopev _ hmem) (by decide)
  · rw [hev]
    apply List.count_eq_zero.mpr
    intro hmem
    exact absurd (hloopev _ hmem) (by decide)

/-- C7: faults raised by the transport or codec capabilities propagate to the
caller unmodified: an existence-check, read or decode fault surfaces from
`run()` exactly as raised, and an encode or write fault surfaces from an
explicit flush exactly as raised — in particular never wrapped in
`ComputationFailedError`. -/
theorem capability_faults_propagate (e : Err) (entries : List RunListEntry) (input : Value)
    (ctx : ContextState) (b : Bytes) (w : World) (rd : RecoveryData)
    (hw : w.stored = some b) :
    ((PersistentComputationContext.run { existsFault := some e } ⟨false⟩ entries input ctx
        w).result = .error e) ∧
    ((PersistentComputationContext.run { readFault := some e } ⟨false⟩ entries input ctx
        w).result = .error e) ∧
    ((PersistentComputationContext.run { deserializeFault := some e } ⟨false⟩ entries input
        ctx w).result = .error e) ∧
    ((flushRecoveryData { serializeFault := some e } rd w).result = .error e) ∧
    ((flushRecoveryData { writeFault := some e } rd w).result = .error e) := by
  obtain ⟨st⟩ := w
  simp only at hw
  subst hw
  refine ⟨?_, ?_, ?_, rfl, rfl⟩
  · have hmr : maybeRecover { existsFault := some e } ⟨false⟩ ctx.recoveryData ⟨some b⟩
        = ⟨.error e, ctx.recoveryData, [.existsCheck]⟩ := rfl
    rw [run_eq_of_mr_error hmr]
  · have hmr : maybeRecover { readFault := some e } ⟨false⟩ ctx.recoveryData ⟨some b⟩
        = ⟨.error e, ctx.recoveryData, [.existsCheck, .readOp]⟩ := rfl
    rw [run_eq_of_mr_error hmr]
  · have hmr : maybeRecover { deserializeFault := some e } ⟨false⟩ ctx.recoveryData ⟨some b⟩
        = ⟨.error e, ctx.recoveryData, [.existsCheck, .readOp]⟩ := rfl
    rw [run_eq_of_mr_error hmr]

/-- C4: when a computation's `run` method raises an error of any kind (after a
prefix of computations succeeded, under healthy capabilities), the error is
recorded into the snapshot, the full snapshot is persisted through exactly one
write, and `run()` fails with `ComputationFailedError` naming the failing
computation and carrying the original error as its cause; the computations
after the failing one are never executed — the run is identical to the run
without them. -/
theorem run_failure_persists_and_wraps (opts : PersistentComputationContextOptions)
    (ctx : ContextState) (w : World) (input : Value) (pre : List ComputationClass)
    (failC : ComputationClass) (post : List RunListEntry) (rec : Bool)
    (rd1 : RecoveryData) (evs : List Event) (v1 : Value) (e : Err)
    (hmr : maybeRecover noFaults opts ctx.recoveryData w = ⟨.ok rec, rd1, evs⟩)
    (hpre : (runLoop noFaults rec (pre.map .classRef) input
        { ctx with recoveryData := rd1 } w).result = .ok v1)
    (hfail : (execProg ⟨failC.name, rec, 0⟩
        (runLoop noFaults rec (pre.map .classRef) input
          { ctx with recoveryData := rd1 } w).ctx.recoveryData (failC.run v1)).result
        = .error e) :
    ((PersistentComputationContext.run noFaults opts
        (pre.map .classRef ++ .classRef failC :: post) input ctx w).result
      = .error (.computationFailedError failC.name e)) ∧
    ((PersistentComputationContext.run noFaults opts
        (pre.map .classRef ++ .classRef failC :: post) input ctx
        w).ctx.recoveryData.error = some e) ∧
    ((PersistentComputationContext.run noFaults opts
        (pre.map .classRef ++ .classRef failC :: post) input ctx w).world.stored
      = some (serialize (PersistentComputationContext.run noFaults opts
          (pre.map .classRef ++ .classRef failC :: post) input ctx
          w).ctx.recoveryData)) ∧
    ((PersistentComputationContext.run noFaults opts
        (pre.map .classRef ++ .classRef failC :: post) input ctx w).events.count
        Event.writeOp = 1) ∧
    ((PersistentComputationContext.run noFaults opts
        (pre.map .classRef ++ .classRef failC :: post) input ctx w).ctx.results
      = (runLoop noFaults rec (pre.map .classRef) input
          { ctx with recoveryData := rd1 } w).ctx.results) ∧
    (PersistentComputationContext.run noFaults opts
        (pre.map .classRef ++ .classRef failC :: post) input ctx w
      = PersistentComputationContext.run noFaults opts
          (pre.map .classRef ++ [.classRef failC]) input ctx w) := by
  have hR : runLoop noFaults rec (RunListEntry.classRef failC :: post) v1
      (runLoop noFaults rec (pre.map .classRef) input
        { ctx with recoveryData := rd1 } w).ctx w
      = ⟨.error (.computationFailedError failC.name e),
         { (runLoop noFaults rec (pre.map .classRef) input
             { ctx with recoveryData := rd1 } w).ctx with
           recoveryData := (PersistentComputationContext.save
             (execProg ⟨failC.name, rec, 0⟩
               (runLoop noFaults rec (pre.map .classRef) input
                 { ctx with recoveryData := rd1 } w).ctx.recoveryData
               (failC.run v1)).rd (some e) failC.name none) },
         ⟨some (serialize (PersistentComputationContext.save
           (execProg ⟨failC.name, rec, 0⟩
             (runLoop noFaults rec (pre.map .classRef) input
               { ctx with recoveryData := rd1 } w).ctx.recoveryData
             (failC.run v1)).rd (some e) failC.name none))⟩,
         [.writeOp],
         (execProg ⟨failC.name, rec, 0⟩
           (runLoop noFaults rec (pre.map .classRef) input
             { ctx with recoveryData := rd1 } w).ctx.recoveryData
           (failC.run v1)).calls⟩ := by
    rw [runLoop_cons_error hfail, flush_noFaults]
  have hR0 : runLoop noFaults rec [RunListEntry.classRef failC] v1
      (runLoop noFaults rec (pre.map .classRef) input
        { ctx with recoveryData := rd1 } w).ctx w
      = runLoop noFaults rec (RunListEntry.classRef failC :: post) v1
        (runLoop noFaults rec (pre.map .classRef) input
          { ctx with recoveryData := rd1 } w).ctx w := by
    rw [hR, runLoop_cons_error hfail, flush_noFaults]
  obtain ⟨hev0, -⟩ := runLoop_ok_events noFaults rec (pre.map .classRef) input
    { ctx with recoveryData := rd1 } w v1 hpre
  have happ := runLoop_append_ok noFaults rec (pre.map .classRef)
    (RunListEntry.classRef failC :: post) input { ctx with recoveryData := rd1 } w v1 hpre
  have happ0 := runLoop_append_ok noFaults rec (pre.map .classRef)
    [RunListEntry.classRef failC] input { ctx with recoveryData := rd1 } w v1 hpre
  rw [hR, hev0, List.nil_append] at happ
  rw [hR0, hR, hev0, List.nil_append] at happ0
  have hlp : (runLoop noFaults rec (pre.map .classRef ++ RunListEntry.classRef failC :: post)
      input { ctx with recoveryData := rd1 } w).result
      = .error (.computationFailedError failC.name e) := by rw [happ]
  have hlp0 : (runLoop noFaults rec (pre.map .classRef ++ [RunListEntry.classRef failC])
      input { ctx with recoveryData := rd1 } w).result
      = .error (.computationFailedError failC.name e) := by rw [happ0]
  obtain ⟨rec', rd1', evs', hmr', hread', hnw'⟩ :=
    maybeRecover_noFaults_shape opts ctx.recoveryData w
  rw [hmr] at hmr'
  have hevs : evs = evs' := congrArg RecoverOut.events hmr'
  have hnw : Event.writeOp ∉ evs := hevs ▸ hnw'
  rw [run_eq_of_loop_error hmr hlp, run_eq_of_loop_error hmr hlp0]
  rw [happ, happ0]
  dsimp only
  refine ⟨rfl, save_error_error _ _ _, rfl, ?_, rfl, rfl⟩
  rw [List.count_append, List.count_eq_zero.mpr hnw]
  decide

/-- Witness for C4 at a concrete failing run: one successful step computation
followed by a throwing computation and a further computation that never runs. -/
theorem run_failure_persists_and_wraps_witness :
    (maybeRecover noFaults ⟨false⟩ (newContext .vNull).recoveryData ⟨none⟩
      = ⟨.ok false, (newContext .vNull).recoveryData, [.existsCheck]⟩) ∧
    ((runLoop noFaults false ([demoStepClass].map .classRef) .vNull
        { newContext .vNull with recoveryData := (newContext .vNull).recoveryData }
        ⟨none⟩).result = .ok (.vInt 1)) ∧
    ((execProg ⟨throwingClass.name, false, 0⟩
        (runLoop noFaults false ([demoStepClass].map .classRef) .vNull
          { newContext .vNull with recoveryData := (newContext .vNull).recoveryData }
          ⟨none⟩).ctx.recoveryData (throwingClass.run (.vInt 1))).result
      = .error (.baseComputationError "ComputationErrorMessage")) ∧
    ((PersistentComputationContext.run noFaults ⟨false⟩
        ([demoStepClass].map .classRef ++ .classRef throwingClass
          :: [.classRef demoStepClass]) .vNull (newContext .vNull) ⟨none⟩).result
      = .error (.computationFailedError throwingClass.name
          (.baseComputationError "ComputationErrorMessage"))) :=
  ⟨rfl, rfl, rfl,
   (run_failure_persists_and_wraps ⟨false⟩ (newContext .vNull) ⟨none⟩ .vNull
     [demoStepClass] throwingClass [.classRef demoStepClass] false
     (newContext .vNull).recoveryData [.existsCheck] (.vInt 1)
     (.baseComputationError "ComputationErrorMessage") rfl rfl rfl).1⟩

/-- Witness for C7 at a concrete fault value and stored payload. -/
theorem capability_faults_propagate_witness :
    ((⟨some (some ⟨[], Value.vNull, none⟩)⟩ : World).stored
      = some (some ⟨[], Value.vNull, none⟩)) ∧
    ((PersistentComputationContext.run { existsFault := some (.transportError "io") }
        ⟨false⟩ [] .vNull (newContext .vNull)
        ⟨some (some ⟨[], Value.vNull, none⟩)⟩).result = .error (.transportError "io")) ∧
    ((PersistentComputationContext.run { readFault := some (.transportError "io") }
        ⟨false⟩ [] .vNull (newContext .vNull)
        ⟨some (some ⟨[], Value.vNull, none⟩)⟩).result = .error (.transportError "io")) ∧
    ((PersistentComputationContext.run { deserializeFault := some (.transportError "io") }
        ⟨false⟩ [] .vNull (newContext .vNull)
        ⟨some (some ⟨[], Value.vNull, none⟩)⟩).result = .error (.transportError "io")) ∧
    ((flushRecoveryData { serializeFault := some (.transportError "io") }
        ⟨[], Value.vNull, none⟩ ⟨some (some ⟨[], Value.vNull, none⟩)⟩).result
      = .error (.transportError "io")) ∧
    ((flushRecoveryData { writeFault := some (.transportError "io") }
        ⟨[], Value.vNull, none⟩ ⟨some (some ⟨[], Value.vNull, none⟩)⟩).result
      = .error (.transportError "io")) :=
  ⟨rfl, capability_faults_propagate (.transportError "io") [] .vNull (newContext .vNull)
    (some ⟨[], Value.vNull, none⟩) ⟨some (some ⟨[], Value.vNull, none⟩)⟩
    ⟨[], Value.vNull, none⟩ rfl⟩

/-- Counterexample for C8: the snapshot key follows the runtime class name, so
it is not decoupled from reflection-based naming — a step result stored by a
computation whose `constructor.name` is `A` is found under key `A` but not
under key `B`, although the source declares no identifier other than the
runtime class name. -/
theorem snapshot_key_reflection_counterexample :
    (PersistentComputationContext.hasRecoveryData
      (PersistentComputation.step ⟨[], Value.vNull, none⟩ (newInstance "A")
        (Value.vInt 7)).rd "A" 0 = true) ∧
    (PersistentComputationContext.hasRecoveryData
      (PersistentComputation.step ⟨[], Value.vNull, none⟩ (newInstance "A")
        (Value.vInt 7)).rd "B" 0 = false) ∧
    ((PersistentComputation.step ⟨[], Value.vNull, none⟩ (newInstance "A")
        (Value.vInt 7)).rd.computations = [("A", [Value.vInt 7])]) := by
  exact ⟨rfl, rfl, rfl⟩

/-- C8 amended: the key under which a computation's step results are stored
and looked up is exactly the computation's runtime class name
(`constructor.name`); the source declares no separate explicit identifier, so
the snapshot key is coupled to reflection-based naming and renaming the class
changes the key. -/
theorem snapshot_key_is_constructor_name (c : ComputationClass) (rd : RecoveryData)
    (v : Value) (k : String) :
    findComp (PersistentComputationContext.save rd none (newInstance c.name).className
        (some v)).computations k
      = (if k = c.name
         then some (((findComp rd.computations c.name).getD []) ++ [v])
         else findComp rd.computations k) := by
  by_cases hk : k = c.name
  · subst hk
    rw [if_pos rfl]
    exact findComp_updateComp_self rd.computations c.name v
  · rw [if_neg hk]
    exact findComp_save_step_other rd c.name k v hk

/-- C9 (code bug): `run` evaluates `new Computation(this)` for every entry of
the given list, so an already-constructed computation instance in the list —
which the repository's own test "should allow to mix classes and instances in
the `run` method" expects to be used as-is — makes `run` raise a TypeError
(`new` on a non-constructor) with no computation executed, no step callback
invoked and no result produced. -/
theorem run_instance_entry_raises_typeError :
    ((PersistentComputationContext.run noFaults ⟨false⟩
        [.instanceRef demoStepClass (newInstance "DemoStep")] .vNull
        (newContext .vNull) ⟨none⟩).result
      = .error (.typeError "Computation is not a constructor")) ∧
    ((PersistentComputationContext.run noFaults ⟨false⟩
        [.instanceRef demoStepClass (newInstance "DemoStep")] .vNull
        (newContext .vNull) ⟨none⟩).calls = 0) ∧
    ((PersistentComputationContext.run noFaults ⟨false⟩
        [.instanceRef demoStepClass (newInstance "DemoStep")] .vNull
        (newContext .vNull) ⟨none⟩).ctx.results = []) := by
  exact ⟨rfl, rfl, rfl⟩

theorem flush_world (f : Faults) (rd : RecoveryData) (w : World) :
    (flushRecoveryData f rd w).world = w ∨
    (flushRecoveryData f rd w).world = ⟨some (serialize rd)⟩ := by
  unfold flushRecoveryData
  cases f.serializeFault with
  | some e => exact .inl rfl
  | none =>
    cases f.writeFault with
    | some e => exact .inl rfl
    | none => exact .inr rfl

theorem runLoop_world (f : Faults) (recovered : Bool) (entries : List RunListEntry) :
    ∀ (input : Value) (ctx : ContextState) (w : World),
    (runLoop f recovered entries input ctx w).world = w ∨
    (runLoop f recovered entries input ctx w).world.stored
      = some (serialize (runLoop f recovered entries input ctx w).ctx.recoveryData) := by
  induction entries with
  | nil =>
    intro input ctx w
    exact .inl rfl
  | cons entry rest ih =>
    intro input ctx w
    cases entry with
    | instanceRef c inst => exact .inl rfl
    | classRef c =>
      cases hex : (execProg ⟨c.name, recovered, 0⟩ ctx.recoveryData (c.run input)).result with
      | ok v0 =>
        rw [runLoop_cons_ok hex]
        exact ih v0 (pushResult { ctx with recoveryData :=
          (execProg ⟨c.name, recovered, 0⟩ ctx.recoveryData (c.run input)).rd } c.name v0) w
      | error err =>
        rw [runLoop_cons_error hex]
        rcases flush_world f (PersistentComputationContext.save
          (execProg ⟨c.name, recovered, 0⟩ ctx.recoveryData (c.run input)).rd (some err)
          c.name none) w with hfw | hfw
        all_goals {
          cases hfl : (flushRecoveryData f (PersistentComputationContext.save
              (execProg ⟨c.name, recovered, 0⟩ ctx.recoveryData (c.run input)).rd (some err)
              c.name none) w).result with
          | error fe => first
            | exact .inl hfw
            | exact .inr (by rw [hfw])
          | ok u => first
            | exact .inl hfw
            | exact .inr (by rw [hfw])
        }

/-- Counterexample for C10: the `#results` list is created at construction and
never cleared, so a second `run()` on the same Runner does not start with an
empty RunResult list — it still holds the first run's entry and appends the
second run's entry after it. -/
theorem results_survive_across_runs_counterexample :
    ((PersistentComputationContext.run noFaults ⟨false⟩ [.classRef demoStepClass] .vNull
      (newContext .vNull) ⟨none⟩).ctx.results = [⟨"DemoStep", .vInt 1⟩]) ∧
    ((PersistentComputationContext.run noFaults ⟨false⟩ [.classRef demoStepClass] .vNull
      (PersistentComputationContext.run noFaults ⟨false⟩ [.classRef demoStepClass] .vNull
        (newContext .vNull) ⟨none⟩).ctx
      (PersistentComputationContext.run noFaults ⟨false⟩ [.classRef demoStepClass] .vNull
        (newContext .vNull) ⟨none⟩).world).ctx.results
      = [⟨"DemoStep", .vInt 1⟩, ⟨"DemoStep", .vInt 1⟩]) := by
  exact ⟨rfl, rfl⟩

/-- C10 amended: RunResults exist only in memory and are never persisted — any
write performed by `run()` or by an explicit flush stores exactly the
serialized `recoveryData`, a structure containing no RunResults — but the
in-memory list is not cleared between runs: each `run()` appends its
RunResults to the Runner's existing list, so a later `run()` on the same
Runner still sees the earlier runs' RunResults. -/
theorem results_never_persisted_but_cumulative :
    (∀ (f : Faults) (opts : PersistentComputationContextOptions)
        (entries : List RunListEntry) (input : Value) (ctx : ContextState) (w : World),
      ∃ ds, (PersistentComputationContext.run f opts entries input ctx w).ctx.results
        = ctx.results ++ ds) ∧
    (∀ (f : Faults) (opts : PersistentComputationContextOptions)
        (entries : List RunListEntry) (input : Value) (ctx : ContextState) (w : World),
      (PersistentComputationContext.run f opts entries input ctx w).world = w ∨
      (PersistentComputationContext.run f opts entries input ctx w).world.stored
        = some (serialize (PersistentComputationContext.run f opts entries input ctx
            w).ctx.recoveryData)) ∧
    (∀ (f : Faults) (rd : RecoveryData) (w : World),
      (flushRecoveryData f rd w).world = w ∨
      (flushRecoveryData f rd w).world = ⟨some (serialize rd)⟩) := by
  refine ⟨?_, ?_, flush_world⟩
  · intro f opts entries input ctx w
    rcases hmr : maybeRecover f opts ctx.recoveryData w with ⟨res, rd1, evs⟩
    cases res with
    | error e =>
      rw [run_eq_of_mr_error hmr]
      exact ⟨[], (List.append_nil _).symm⟩
    | ok rec =>
      cases hlp : (runLoop f rec entries input { ctx with recoveryData := rd1 } w).result with
      | ok v =>
        rw [run_eq_of_loop_ok hmr hlp]
        exact (runLoop_facts f rec entries input { ctx with recoveryData := rd1 } w).2.2.1
      | error e =>
        rw [run_eq_of_loop_error hmr hlp]
        exact (runLoop_facts f rec entries input { ctx with recoveryData := rd1 } w).2.2.1
  · intro f opts entries input ctx w
    rcases hmr : maybeRecover f opts ctx.recoveryData w with ⟨res, rd1, evs⟩
    cases res with
    | error e =>
      rw [run_eq_of_mr_error hmr]
      exact .inl rfl
    | ok rec =>
      cases hlp : (runLoop f rec entries input { ctx with recoveryData := rd1 } w).result with
      | ok v =>
        rw [run_eq_of_loop_ok hmr hlp]
        exact runLoop_world f rec entries input { ctx with recoveryData := rd1 } w
      | error e =>
        rw [run_eq_of_loop_error hmr hlp]
        exact runLoop_world f rec entries input { ctx with recoveryData := rd1 } w

end PersistentComputations
